import Mathlib

/-!
# go-stats: the polling / state-coordination layer

A shallow embedding of `src/models/{cpuDetails,gpuDetails,networkDetails,processDetails,menu}.go`.

Conventions of the embedding

* The values of Go's `int` (64 bits) are carried in `Int`.  The statement `x++` on the
  generations and on the spinner index is `intInc`, which wraps around from the largest `int` to
  the smallest; the two steps of the cursor are guarded by the menu bounds and cannot overflow.
* `float64` values are carried as their IEEE-754 bit pattern (`Float64`); the three floating
  point operations of `NetworkModel.Update` are taken from the environment `Env`, and the
  comparison `>` that `fetchPsData` sorts by is defined on the bit pattern.
* The functions of the Go standard library that `fetchPsData` calls (`strings`, `strconv`,
  `sort`) are the fields of `PsLib`; `sort.Slice` enters the proofs through what it guarantees.
* `time.Time` is an abstract instant (`Time`); `time.Duration` is a number of nanoseconds.
* `tea.Msg` (an empty interface) is the sum type `Msg`; `tea.Cmd` (a closure, `nil` when absent)
  is `Option Cmd`, where `Cmd` records what the closure does when the runtime executes it.
* A run-time panic (index out of range) is the result `none` of `MainModel.Update`.
-/

namespace GoStats

/-! ## Basic types -/

/-- A `float64`, by its bit pattern. -/
structure Float64 where
  bits : Nat
  deriving DecidableEq, Repr

/-- A `time.Time`, as an abstract instant. -/
structure Time where
  nanos : Int
  deriving DecidableEq, Repr

/-- A `time.Duration`: nanoseconds. -/
abbrev Duration := Int

def Millisecond : Duration := 1000000
def Second : Duration := 1000 * Millisecond
def Minute : Duration := 60 * Second

/-- The largest value of a Go `int` (64 bits). -/
def maxInt : Int := 9223372036854775807

/-- The smallest value of a Go `int` (64 bits). -/
def minInt : Int := -9223372036854775808

/-- The statement `x++` on a Go `int`: the sum is taken in two's complement on 64 bits,
`(x + 1 + 2^63) mod 2^64 - 2^63`, so the largest value is followed by the smallest. -/
def intInc (x : Int) : Int :=
  (x + 1 + 9223372036854775808) % 18446744073709551616 - 9223372036854775808

/-- What the Go runtime and the clock supply to `NetworkModel.Update`. -/
structure Env where
  /-- the value of `time.Now().Format("15:04")` at the moment of the call -/
  nowHHMM : String
  /-- the value of `t.Sub(u).Seconds()` -/
  subSeconds : Time → Time → Float64
  /-- the comparison `d > 0` on `float64` -/
  isPositive : Float64 → Bool
  /-- the quotient `float64(n) / d` for a `uint64` value `n` -/
  divUint64 : Nat → Float64 → Float64

/-! ## Messages -/

structure CpuStatsMsg where
  id : Int
  cpuName : String
  cpuFreq : Float64
  cpuUsage : Float64
  cpuTemp : Float64
  cpuFanSpeed : String
  ramTotal : String
  ramUsed : String
  ramFree : String
  ramUsedPercent : String
  ramFreePercent : String
  deriving DecidableEq, Repr

structure GpuStatsMsg where
  id : Int
  gpuName : String
  gpuUsage : String
  gpuTemp : String
  gpuFans : String
  gpuMemoryTotal : String
  gpuMemoryUsed : String
  gpuMemoryFree : String
  gpuMemoryUsedPercent : String
  gpuMemoryFreePercent : String
  deriving DecidableEq, Repr

structure NetTickMsg where
  id : Int
  bytesRecv : Nat
  bytesSent : Nat
  timestamp : Time
  deriving DecidableEq, Repr

structure SpeedtestMsg where
  Id : Int
  Download : Float64
  deriving DecidableEq, Repr

structure ProcessItem where
  Pid : String
  Name : String
  Value : Float64
  Unit : String
  deriving DecidableEq, Repr

structure ProcessMsg where
  id : Int
  CpuTop : List ProcessItem
  RamTop : List ProcessItem
  deriving DecidableEq, Repr

/-- The dynamic types a `tea.Msg` can have.  A `tea.KeyMsg` is represented by the value of its
`String()` method, which is all the program reads of it. -/
inductive Msg where
  | key (s : String)
  | windowSize (width height : Int)
  | heartbeat (t : Time)
  | cpuStats (msg : CpuStatsMsg)
  | gpuStats (msg : GpuStatsMsg)
  | netTick (msg : NetTickMsg)
  | speedtest (msg : SpeedtestMsg)
  | speedtestTrigger (id : Int)
  | process (msg : ProcessMsg)
  | other
  deriving DecidableEq, Repr

/-- The test `keyMsg, ok := msg.(tea.KeyMsg); ok && keyMsg.String() == k`. -/
def Msg.isKey (msg : Msg) (k : String) : Bool :=
  match msg with
  | .key s => s == k
  | _ => false

/-! ## Commands -/

/-- The body of a command closure: the collection it performs and the message it returns. -/
inductive Job where
  /-- calls `collectCpuData(id)`, returns a `CpuStatsMsg` with that id -/
  | collectCpuData (id : Int)
  /-- calls `collectNvidiaData(id)`, returns a `GpuStatsMsg` with that id -/
  | collectNvidiaData (id : Int)
  /-- calls `collectNetworkData(id, iface)`, returns a `NetTickMsg` with that id -/
  | collectNetworkData (id : Int) (iface : String)
  /-- calls `collectProcessData(id)`, returns a `ProcessMsg` with that id -/
  | collectProcessData (id : Int)
  /-- the closure of `runSpeedtest(id)`, returns a `SpeedtestMsg` with that id -/
  | runSpeedtest (id : Int)
  /-- returns `SpeedtestTriggerMsg(id)` -/
  | speedtestTrigger (id : Int)
  /-- returns `HeartbeatMsg(t)` -/
  | heartbeat
  /-- the command `tea.Quit` -/
  | quit
  deriving DecidableEq, Repr

/-- A non-nil `tea.Cmd`. -/
inductive Cmd where
  /-- a plain closure `func() tea.Msg`, executed at once -/
  | run (j : Job)
  /-- the command `tea.Tick(d, fn)`: `fn` runs after the delay `d` -/
  | tick (d : Duration) (j : Job)
  /-- the closure returned by `tea.Batch`: all members are executed concurrently -/
  | batch (cs : List Cmd)
  deriving Repr

/-- The function `tea.Batch(cmds...)` of the bubbletea library: nil members are dropped; nothing
left gives nil, one command left is returned as it is, several are wrapped in one batch.  (Older
releases of the library wrap a single command too; where that could matter the theorems compare
commands by `cmdLeaves`.) -/
def teaBatch (cmds : List (Option Cmd)) : Option Cmd :=
  match cmds.filterMap id with
  | [] => none
  | [c] => some c
  | cs => some (Cmd.batch cs)

mutual
/-- The closures the runtime finally executes for a command, batches expanded. -/
def Cmd.leaves : Cmd → List Cmd
  | .run j => [.run j]
  | .tick d j => [.tick d j]
  | .batch cs => Cmd.leavesList cs
/-- Leaves of a list of commands. -/
def Cmd.leavesList : List Cmd → List Cmd
  | [] => []
  | c :: cs => c.leaves ++ Cmd.leavesList cs
end

/-- Leaves of a possibly nil command. -/
def cmdLeaves : Option Cmd → List Cmd
  | none => []
  | some c => c.leaves

/-! ## The four pollers -/

structure CpuModel where
  Id : Int
  CpuName : String
  CpuFreq : Float64
  CpuUsage : Float64
  CpuTemp : Float64
  CpuFanSpeed : String
  RamTotal : String
  RamUsed : String
  RamFree : String
  RamUsedPercent : String
  RamFreePercent : String
  Polling : Bool
  deriving DecidableEq, Repr

def NewCpuModel : CpuModel :=
  { Id := 0, CpuName := "Loading...", CpuFreq := ⟨0⟩, CpuUsage := ⟨0⟩, CpuTemp := ⟨0⟩,
    CpuFanSpeed := "Loading...", RamTotal := "Loading...", RamUsed := "Loading...",
    RamFree := "Loading...", RamUsedPercent := "0%", RamFreePercent := "0%", Polling := false }

def getCpuStats (id : Int) : Cmd := .tick Second (.collectCpuData id)

def CpuModel.Init (m : CpuModel) : Option Cmd :=
  if m.Polling then some (getCpuStats m.Id) else none

def CpuModel.Update (m : CpuModel) (msg : Msg) : CpuModel × Option Cmd :=
  match msg with
  | .cpuStats msg =>
    if msg.id ≠ m.Id then (m, none)
    else
      let m := { m with
        CpuName := msg.cpuName, CpuFreq := msg.cpuFreq, CpuUsage := msg.cpuUsage,
        CpuTemp := msg.cpuTemp, CpuFanSpeed := msg.cpuFanSpeed, RamTotal := msg.ramTotal,
        RamUsed := msg.ramUsed, RamFree := msg.ramFree, RamUsedPercent := msg.ramUsedPercent,
        RamFreePercent := msg.ramFreePercent }
      if m.Polling then (m, some (getCpuStats m.Id)) else (m, none)
  | _ => (m, none)

structure GpuModel where
  Id : Int
  GpuName : String
  GpuUsage : String
  GpuTemp : String
  GpuFans : String
  GpuMemoryTotal : String
  GpuMemoryUsed : String
  GpuMemoryFree : String
  GpuMemoryUsedPercent : String
  GpuMemoryFreePercent : String
  Polling : Bool
  deriving DecidableEq, Repr

def NewGpuModel : GpuModel :=
  { Id := 0, GpuName := "Loading...", GpuUsage := "Loading...", GpuTemp := "Loading...",
    GpuFans := "Loading...", GpuMemoryTotal := "Loading...", GpuMemoryUsed := "Loading...",
    GpuMemoryFree := "Loading...", GpuMemoryUsedPercent := "0%", GpuMemoryFreePercent := "0%",
    Polling := false }

def getGpuStats (id : Int) : Cmd := .tick Second (.collectNvidiaData id)

def GpuModel.Init (m : GpuModel) : Option Cmd :=
  if m.Polling then some (getGpuStats m.Id) else none

def GpuModel.Update (m : GpuModel) (msg : Msg) : GpuModel × Option Cmd :=
  match msg with
  | .gpuStats msg =>
    if msg.id ≠ m.Id then (m, none)
    else
      let m := { m with
        GpuName := msg.gpuName, GpuUsage := msg.gpuUsage, GpuTemp := msg.gpuTemp,
        GpuFans := msg.gpuFans, GpuMemoryTotal := msg.gpuMemoryTotal,
        GpuMemoryUsed := msg.gpuMemoryUsed, GpuMemoryFree := msg.gpuMemoryFree,
        GpuMemoryUsedPercent := msg.gpuMemoryUsedPercent,
        GpuMemoryFreePercent := msg.gpuMemoryFreePercent }
      if m.Polling then (m, some (getGpuStats m.Id)) else (m, none)
  | _ => (m, none)

structure NetworkModel where
  Id : Int
  Interface : String
  NetType : String
  WifiBand : String
  Ipv6Disabled : Bool
  DownloadRate : Float64
  UploadRate : Float64
  lastBytesRecv : Nat
  lastBytesSent : Nat
  lastCheck : Time
  Polling : Bool
  SpeedtestDownload : Float64
  SpeedtestTime : String
  IsSpeedtesting : Bool
  deriving DecidableEq, Repr

/-- What `detectInterfaceInfo` finds on the machine. -/
structure InterfaceInfo where
  Interface : String
  NetType : String
  WifiBand : String
  Ipv6Disabled : Bool
  deriving DecidableEq, Repr

/-- The function `NewNetworkModel`: the zero value with the fields `detectInterfaceInfo` writes. -/
def NewNetworkModel (info : InterfaceInfo) : NetworkModel :=
  { Id := 0, Interface := info.Interface, NetType := info.NetType, WifiBand := info.WifiBand,
    Ipv6Disabled := info.Ipv6Disabled, DownloadRate := ⟨0⟩, UploadRate := ⟨0⟩,
    lastBytesRecv := 0, lastBytesSent := 0, lastCheck := ⟨0⟩, Polling := false,
    SpeedtestDownload := ⟨0⟩, SpeedtestTime := "", IsSpeedtesting := false }

def getNetworkTick (id : Int) (iface : String) : Cmd := .tick Second (.collectNetworkData id iface)

def runSpeedtest (id : Int) : Cmd := .run (.runSpeedtest id)

/-- The method `NetworkModel.Init` has a value receiver: its assignments to `lastBytesRecv`,
`lastBytesSent`, `lastCheck` and `IsSpeedtesting` change the callee's copy only, so the command
is all it yields. -/
def NetworkModel.Init (m : NetworkModel) : Option Cmd :=
  if m.Polling then teaBatch [some (getNetworkTick m.Id m.Interface), some (runSpeedtest m.Id)]
  else none

/-- Subtraction of two `uint64` values. -/
def subUint64 (a b : Nat) : Nat := (a + 2 ^ 64 - b % 2 ^ 64) % 2 ^ 64

def NetworkModel.Update (env : Env) (m : NetworkModel) (msg : Msg) : NetworkModel × Option Cmd :=
  match msg with
  | .speedtest msg =>
    if msg.Id ≠ m.Id then (m, none)
    else
      let m := { m with
        SpeedtestDownload := msg.Download, SpeedtestTime := env.nowHHMM, IsSpeedtesting := false }
      (m, some (.tick (5 * Minute) (.speedtestTrigger m.Id)))
  | .speedtestTrigger id =>
    if id ≠ m.Id then (m, none)
    else if !m.Polling then (m, none)
    else
      let m := { m with IsSpeedtesting := true }
      (m, some (runSpeedtest m.Id))
  | .netTick msg =>
    if msg.id ≠ m.Id then (m, none)
    else
      let duration := env.subSeconds msg.timestamp m.lastCheck
      let m :=
        if env.isPositive duration then
          { m with
            DownloadRate := env.divUint64 (subUint64 msg.bytesRecv m.lastBytesRecv) duration,
            UploadRate := env.divUint64 (subUint64 msg.bytesSent m.lastBytesSent) duration }
        else m
      let m := { m with
        lastBytesRecv := msg.bytesRecv, lastBytesSent := msg.bytesSent,
        lastCheck := msg.timestamp }
      if m.Polling then (m, some (getNetworkTick m.Id m.Interface)) else (m, none)
  | _ => (m, none)

structure ProcessModel where
  Id : Int
  CpuTop : List ProcessItem
  RamTop : List ProcessItem
  Polling : Bool
  deriving DecidableEq, Repr

def NewProcessModel : ProcessModel :=
  { Id := 0, CpuTop := [], RamTop := [], Polling := false }

def getProcessStats (id : Int) : Cmd := .tick (2 * Second) (.collectProcessData id)

def ProcessModel.Init (m : ProcessModel) : Option Cmd :=
  if m.Polling then some (getProcessStats m.Id) else none

def ProcessModel.Update (m : ProcessModel) (msg : Msg) : ProcessModel × Option Cmd :=
  match msg with
  | .process msg =>
    if msg.id ≠ m.Id then (m, none)
    else
      let m := { m with CpuTop := msg.CpuTop, RamTop := msg.RamTop }
      if m.Polling then (m, some (getProcessStats m.Id)) else (m, none)
  | _ => (m, none)

/-! ## The coordinator -/

structure MainModel where
  choices : List String
  cursor : Int
  /-- the key set of the Go map `selected` -/
  selected : Finset Int
  Page : String
  width : Int
  height : Int
  cpuModel : CpuModel
  gpuModel : GpuModel
  netModel : NetworkModel
  procModel : ProcessModel
  spinnerIndex : Int
  currentTime : Time
  deriving DecidableEq

def InitialModel (info : InterfaceInfo) : MainModel :=
  { choices := ["all", "network", "cpu", "gpu", "processes"],
    cursor := 0, selected := ∅, Page := "menu", width := 0, height := 0,
    cpuModel := NewCpuModel, gpuModel := NewGpuModel, netModel := NewNetworkModel info,
    procModel := NewProcessModel, spinnerIndex := 0, currentTime := ⟨0⟩ }

def doHeartbeat : Cmd := .tick (Millisecond * 100) .heartbeat

def MainModel.Init (m : MainModel) : Option Cmd :=
  teaBatch [
    some (.run (.collectCpuData m.cpuModel.Id)),
    some (.run (.collectNvidiaData m.gpuModel.Id)),
    some (.run (.collectNetworkData m.netModel.Id m.netModel.Interface)),
    some (.run (.collectProcessData m.procModel.Id)),
    some doHeartbeat]

/-- The slice index expression `xs[i]` with a Go `int` index; `none` is the run-time panic. -/
def sliceIndex (xs : List String) (i : Int) : Option String :=
  if 0 ≤ i then xs[i.toNat]? else none

/-- The `case "enter"` arm of the menu page, after `m.Page = m.choices[m.cursor]`. -/
def MainModel.enterPage (m : MainModel) : MainModel × Option Cmd :=
  if m.Page = "cpu" then
    let m := { m with cpuModel := { m.cpuModel with Polling := true, Id := intInc m.cpuModel.Id } }
    (m, m.cpuModel.Init)
  else if m.Page = "gpu" then
    let m := { m with gpuModel := { m.gpuModel with Polling := true, Id := intInc m.gpuModel.Id } }
    (m, m.gpuModel.Init)
  else if m.Page = "network" then
    let m := { m with netModel := { m.netModel with Polling := true, Id := intInc m.netModel.Id } }
    (m, m.netModel.Init)
  else if m.Page = "processes" then
    let m := { m with procModel := { m.procModel with Polling := true, Id := intInc m.procModel.Id } }
    (m, m.procModel.Init)
  else if m.Page = "all" then
    let m := { m with
      cpuModel := { m.cpuModel with Polling := true, Id := intInc m.cpuModel.Id },
      gpuModel := { m.gpuModel with Polling := true, Id := intInc m.gpuModel.Id },
      netModel := { m.netModel with Polling := true, Id := intInc m.netModel.Id },
      procModel := { m.procModel with Polling := true, Id := intInc m.procModel.Id } }
    (m, teaBatch [m.cpuModel.Init, m.gpuModel.Init, m.netModel.Init, m.procModel.Init])
  else (m, none)

/-- The menu page logic: the final `switch` of `MainModel.Update`. -/
def MainModel.updateMenu (m : MainModel) (msg : Msg) : Option (MainModel × Option Cmd) :=
  match msg with
  | .key s =>
    if s = "ctrl+c" ∨ s = "q" then some (m, some (.run .quit))
    else if s = "enter" then
      match sliceIndex m.choices m.cursor with
      | none => none
      | some page => some (MainModel.enterPage { m with Page := page })
    else if s = "up" ∨ s = "k" then
      some (if m.cursor > 0 then { m with cursor := m.cursor - 1 } else m, none)
    else if s = "down" ∨ s = "j" then
      some (if m.cursor < (m.choices.length : Int) - 1 then { m with cursor := m.cursor + 1 }
            else m, none)
    else if s = " " then
      -- every key other than the cursor is deleted, then the cursor is inserted
      some ({ m with selected := insert m.cursor (m.selected.filter (fun i => i = m.cursor)) },
            none)
    else some (m, none)
  | _ => some (m, none)

/-- The method `MainModel.Update`; `none` is a run-time panic. -/
def MainModel.Update (env : Env) (m : MainModel) (msg : Msg) :
    Option (MainModel × Option Cmd) :=
  match msg with
  | .heartbeat t =>
    some ({ m with spinnerIndex := intInc m.spinnerIndex, currentTime := t }, some doHeartbeat)
  | _ =>
    let m := match msg with
      | .windowSize w h => { m with width := w, height := h }
      | _ => m
    if m.Page = "cpu" then
      if msg.isKey " " then
        some ({ m with Page := "menu", cpuModel := { m.cpuModel with Polling := false } }, none)
      else
        let r := m.cpuModel.Update msg
        some ({ m with cpuModel := r.1 }, r.2)
    else if m.Page = "gpu" then
      if msg.isKey " " then
        some ({ m with Page := "menu", gpuModel := { m.gpuModel with Polling := false } }, none)
      else
        let r := m.gpuModel.Update msg
        some ({ m with gpuModel := r.1 }, r.2)
    else if m.Page = "network" then
      if msg.isKey " " then
        some ({ m with Page := "menu", netModel := { m.netModel with Polling := false } }, none)
      else
        let r := m.netModel.Update env msg
        some ({ m with netModel := r.1 }, r.2)
    else if m.Page = "processes" then
      if msg.isKey " " then
        some ({ m with Page := "menu", procModel := { m.procModel with Polling := false } }, none)
      else
        let r := m.procModel.Update msg
        some ({ m with procModel := r.1 }, r.2)
    else if m.Page = "all" then
      if msg.isKey " " then
        some ({ m with
          Page := "menu",
          cpuModel := { m.cpuModel with Polling := false },
          gpuModel := { m.gpuModel with Polling := false },
          netModel := { m.netModel with Polling := false },
          procModel := { m.procModel with Polling := false } }, none)
      else
        let rC := m.cpuModel.Update msg
        let rG := m.gpuModel.Update msg
        let rN := m.netModel.Update env msg
        let rP := m.procModel.Update msg
        some ({ m with cpuModel := rC.1, gpuModel := rG.1, netModel := rN.1, procModel := rP.1 },
          teaBatch [rC.2, rG.2, rN.2, rP.2])
    else m.updateMenu msg

/-! ## Vocabulary of the specification -/

/-- The messages that carry a telemetry result or a speedtest trigger. -/
def Msg.isTelemetry : Msg → Bool
  | .cpuStats _ | .gpuStats _ | .netTick _ | .speedtest _ | .speedtestTrigger _ | .process _ =>
    true
  | _ => false

/-- The five pages that have page logic of their own in `MainModel.Update`. -/
def isPollerPage (page : String) : Prop :=
  page = "cpu" ∨ page = "gpu" ∨ page = "network" ∨ page = "processes" ∨ page = "all"

instance (page : String) : Decidable (isPollerPage page) := by
  unfold isPollerPage; infer_instance

/-- The page of the poller whose `Update` has a case for the message's dynamic type. -/
def Msg.owner : Msg → Option String
  | .cpuStats _ => some "cpu"
  | .gpuStats _ => some "gpu"
  | .netTick _ | .speedtest _ | .speedtestTrigger _ => some "network"
  | .process _ => some "processes"
  | _ => none

/-- The routing the specification describes: the message goes to the `Update` of the poller that
owns its kind, that poller's state is replaced by the result, and the poller's command is
returned.  Nothing else of the coordinator changes. -/
def MainModel.specRoute (env : Env) (m : MainModel) (msg : Msg) : MainModel × Option Cmd :=
  match msg with
  | .cpuStats _ => ({ m with cpuModel := (m.cpuModel.Update msg).1 }, (m.cpuModel.Update msg).2)
  | .gpuStats _ => ({ m with gpuModel := (m.gpuModel.Update msg).1 }, (m.gpuModel.Update msg).2)
  | .netTick _ | .speedtest _ | .speedtestTrigger _ =>
    ({ m with netModel := (m.netModel.Update env msg).1 }, (m.netModel.Update env msg).2)
  | .process _ =>
    ({ m with procModel := (m.procModel.Update msg).1 }, (m.procModel.Update msg).2)
  | _ => (m, none)

/-- A leaf command that fires without delay: a plain closure, or a tick of no duration. -/
def Cmd.firesAtOnce : Cmd → Bool
  | .run _ => true
  | .tick d _ => decide (d ≤ 0)
  | .batch _ => false

/-- A command all of whose closures fire without delay. -/
def Cmd.isImmediate (c : Cmd) : Bool := c.leaves.all Cmd.firesAtOnce

/-! ## Concrete inputs -/

/-- An environment for evaluating the definitions on concrete inputs. -/
def testEnv : Env :=
  { nowHHMM := "12:00", subSeconds := fun t u => ⟨(t.nanos - u.nanos).toNat⟩,
    isPositive := fun d => decide (0 < d.bits), divUint64 := fun n d => ⟨n / d.bits⟩ }

def sampleInfo : InterfaceInfo :=
  { Interface := "eth0", NetType := "Wired", WifiBand := "", Ipv6Disabled := false }

def sampleCpuMsg (id : Int) : CpuStatsMsg :=
  { id := id, cpuName := "Ryzen", cpuFreq := ⟨3600⟩, cpuUsage := ⟨42⟩, cpuTemp := ⟨55⟩,
    cpuFanSpeed := "1200 RPM", ramTotal := "16000.00", ramUsed := "4000.00",
    ramFree := "12000.00", ramUsedPercent := "25%", ramFreePercent := "75%" }

def sampleGpuMsg (id : Int) : GpuStatsMsg :=
  { id := id, gpuName := "RTX", gpuUsage := "7", gpuTemp := "40", gpuFans := "30",
    gpuMemoryTotal := "8192", gpuMemoryUsed := "2048", gpuMemoryFree := "6144",
    gpuMemoryUsedPercent := "25%", gpuMemoryFreePercent := "75%" }

def sampleNetMsg (id : Int) : NetTickMsg :=
  { id := id, bytesRecv := 5000, bytesSent := 700, timestamp := ⟨2000000000⟩ }

def sampleSpeedMsg (id : Int) : SpeedtestMsg := { Id := id, Download := ⟨123⟩ }

def sampleProcMsg (id : Int) : ProcessMsg :=
  { id := id, CpuTop := [⟨"1", "init", ⟨9⟩, "%"⟩], RamTop := [⟨"2", "kthreadd", ⟨3⟩, "%"⟩] }

/-- The initial model with the menu cursor moved to line `i`. -/
def menuAt (i : Int) : MainModel := { InitialModel sampleInfo with cursor := i }

/-- The state the confirm key leads to from the initial menu with the cursor on line `i` (0 "all",
1 "network", 2 "cpu", 3 "gpu", 4 "processes"): the page is entered and its pollers are at
generation 1 and polling. -/
def entered (i : Int) : MainModel :=
  match (menuAt i).Update testEnv (.key "enter") with
  | some (m, _) => m
  | none => menuAt i

/-! ## Reachable states -/

/-- The coordinator states reachable from `InitialModel` by a sequence of messages, each
processed by `MainModel.Update` (in whatever environment) without panic. -/
inductive Reachable (info : InterfaceInfo) : MainModel → Prop where
  | init : Reachable info (InitialModel info)
  | step (env : Env) (msg : Msg) (m m' : MainModel) (c : Option Cmd) :
      Reachable info m → m.Update env msg = some (m', c) → Reachable info m'

/-- The coordinator states reachable from `InitialModel` by a sequence of exactly `n` messages,
each processed by `MainModel.Update` without panic. -/
inductive ReachableIn (info : InterfaceInfo) : Nat → MainModel → Prop where
  | init : ReachableIn info 0 (InitialModel info)
  | step (env : Env) (msg : Msg) (n : Nat) (m m' : MainModel) (c : Option Cmd) :
      ReachableIn info n m → m.Update env msg = some (m', c) → ReachableIn info (n + 1) m'

/-- The generation tag a telemetry message carries. -/
def Msg.generation : Msg → Option Int
  | .cpuStats msg => some msg.id
  | .gpuStats msg => some msg.id
  | .netTick msg => some msg.id
  | .speedtest msg => some msg.Id
  | .speedtestTrigger id => some id
  | .process msg => some msg.id
  | _ => none

/-- What holds of every reachable coordinator state: the menu is the initial one and the cursor
is on one of its lines, the page is one of the six page names, and a poller polls exactly on its
own page and on "all". -/
structure MainModel.Inv (m : MainModel) : Prop where
  choices : m.choices = ["all", "network", "cpu", "gpu", "processes"]
  cursor_lo : 0 ≤ m.cursor
  cursor_hi : m.cursor < 5
  page : m.Page = "menu" ∨ isPollerPage m.Page
  cpu : m.cpuModel.Polling = true ↔ (m.Page = "cpu" ∨ m.Page = "all")
  gpu : m.gpuModel.Polling = true ↔ (m.Page = "gpu" ∨ m.Page = "all")
  net : m.netModel.Polling = true ↔ (m.Page = "network" ∨ m.Page = "all")
  proc : m.procModel.Polling = true ↔ (m.Page = "processes" ∨ m.Page = "all")

/-- What holds of the generations after `n` messages, as long as no generation has wrapped
around: each lies between 0 and `n`, and that of a polling poller is at least 1. -/
structure MainModel.IdInv (m : MainModel) (n : Int) : Prop where
  cpuId : 0 ≤ m.cpuModel.Id ∧ m.cpuModel.Id ≤ n ∧ (m.cpuModel.Polling = true → 1 ≤ m.cpuModel.Id)
  gpuId : 0 ≤ m.gpuModel.Id ∧ m.gpuModel.Id ≤ n ∧ (m.gpuModel.Polling = true → 1 ≤ m.gpuModel.Id)
  netId : 0 ≤ m.netModel.Id ∧ m.netModel.Id ≤ n ∧ (m.netModel.Polling = true → 1 ≤ m.netModel.Id)
  procId :
    0 ≤ m.procModel.Id ∧ m.procModel.Id ≤ n ∧ (m.procModel.Polling = true → 1 ≤ m.procModel.Id)

/-- Two coordinator states agree on the menu, the cursor, the page and on the generation and the
polling flag of every poller. -/
structure MainModel.SameCore (m m' : MainModel) : Prop where
  choices : m'.choices = m.choices
  cursor : m'.cursor = m.cursor
  page : m'.Page = m.Page
  cpuId : m'.cpuModel.Id = m.cpuModel.Id
  cpuPolling : m'.cpuModel.Polling = m.cpuModel.Polling
  gpuId : m'.gpuModel.Id = m.gpuModel.Id
  gpuPolling : m'.gpuModel.Polling = m.gpuModel.Polling
  netId : m'.netModel.Id = m.netModel.Id
  netPolling : m'.netModel.Polling = m.netModel.Polling
  procId : m'.procModel.Id = m.procModel.Id
  procPolling : m'.procModel.Polling = m.procModel.Polling

/-! ## The event loop with its outstanding commands -/

/-- The closure of a command that is not a batch. -/
def Cmd.job : Cmd → Option Job
  | .run j => some j
  | .tick _ j => some j
  | .batch _ => none

/-- The closures the runtime starts when `Init` or `Update` returns the command. -/
def cmdJobs (c : Option Cmd) : List Job := (cmdLeaves c).filterMap Cmd.job

/-- Whether a completed closure can deliver the message: each collection returns its message
kind tagged with the id the closure was built with.  `tea.Quit` ends the program and delivers
nothing to `Update`. -/
def Job.delivers : Job → Msg → Bool
  | .collectCpuData id, .cpuStats msg => decide (msg.id = id)
  | .collectNvidiaData id, .gpuStats msg => decide (msg.id = id)
  | .collectNetworkData id _, .netTick msg => decide (msg.id = id)
  | .collectProcessData id, .process msg => decide (msg.id = id)
  | .runSpeedtest id, .speedtest msg => decide (msg.Id = id)
  | .speedtestTrigger id, .speedtestTrigger t => decide (t = id)
  | .heartbeat, .heartbeat _ => true
  | _, _ => false

/-- The messages that come from outside: key presses, window resizes and anything else the
terminal sends. -/
def Msg.isInput : Msg → Bool
  | .key _ | .windowSize _ _ | .other => true
  | _ => false

/-- The running program: the coordinator state and the commands that were issued and have not
yet delivered their message. -/
structure Program where
  model : MainModel
  pending : List Job

/-- One turn of the event loop: an input message is processed, or one outstanding command
completes and its message is processed; the commands `Update` returns become outstanding. -/
inductive Program.Step : Program → Program → Prop where
  | input (env : Env) (msg : Msg) (s : Program) (m' : MainModel) (c : Option Cmd) :
      msg.isInput = true → s.model.Update env msg = some (m', c) →
      Program.Step s ⟨m', s.pending ++ cmdJobs c⟩
  | deliver (env : Env) (j : Job) (msg : Msg) (s : Program) (m' : MainModel) (c : Option Cmd) :
      j ∈ s.pending → j.delivers msg = true → s.model.Update env msg = some (m', c) →
      Program.Step s ⟨m', s.pending.erase j ++ cmdJobs c⟩

/-- The program states reachable from the start, where `MainModel.Init` has issued its
commands. -/
inductive Program.Reachable (info : InterfaceInfo) : Program → Prop where
  | init : Program.Reachable info ⟨InitialModel info, cmdJobs (InitialModel info).Init⟩
  | step (s s' : Program) : Program.Reachable info s → Program.Step s s' →
      Program.Reachable info s'

/-- The program states reachable from the start in exactly `n` turns of the event loop. -/
inductive Program.ReachableIn (info : InterfaceInfo) : Nat → Program → Prop where
  | init : Program.ReachableIn info 0 ⟨InitialModel info, cmdJobs (InitialModel info).Init⟩
  | step (n : Nat) (s s' : Program) : Program.ReachableIn info n s → Program.Step s s' →
      Program.ReachableIn info (n + 1) s'

/-- The subsystem a command belongs to, by its page name. -/
def Job.subsystem : Job → Option String
  | .collectCpuData _ => some "cpu"
  | .collectNvidiaData _ => some "gpu"
  | .collectNetworkData _ _ | .runSpeedtest _ | .speedtestTrigger _ => some "network"
  | .collectProcessData _ => some "processes"
  | _ => none

/-- The number of outstanding commands of a subsystem. -/
def Program.outstanding (s : Program) (p : String) : Nat :=
  s.pending.countP (fun j => decide (j.subsystem = some p))

/-- The self-rescheduling loops of the pollers: one collection loop each, and the speedtest loop
of the network poller. -/
inductive Loop where
  | cpu | gpu | net | speed | proc
  deriving DecidableEq, Repr

/-- The loop a command belongs to and the generation it is tagged with. -/
def Job.loop : Job → Option (Loop × Int)
  | .collectCpuData id => some (.cpu, id)
  | .collectNvidiaData id => some (.gpu, id)
  | .collectNetworkData id _ => some (.net, id)
  | .runSpeedtest id => some (.speed, id)
  | .speedtestTrigger id => some (.speed, id)
  | .collectProcessData id => some (.proc, id)
  | _ => none

/-- The current generation of a loop: the `Id` of its poller. -/
def MainModel.gen (m : MainModel) : Loop → Int
  | .cpu => m.cpuModel.Id
  | .gpu => m.gpuModel.Id
  | .net => m.netModel.Id
  | .speed => m.netModel.Id
  | .proc => m.procModel.Id

/-- The number of outstanding commands of a loop that carry its current generation. -/
def Program.current (s : Program) (l : Loop) : Nat :=
  s.pending.countP (fun j => decide (j.loop = some (l, s.model.gen l)))

/-- The program right after the confirm key on the initial menu, whose cursor is on "all": the
five commands of `MainModel.Init` and the five commands of the four pollers are outstanding. -/
def afterEnterAll : Program :=
  { model := entered 0,
    pending := [.collectCpuData 0, .collectNvidiaData 0, .collectNetworkData 0 "eth0",
      .collectProcessData 0, .heartbeat, .collectCpuData 1, .collectNvidiaData 1,
      .collectNetworkData 1 "eth0", .runSpeedtest 1, .collectProcessData 1] }

/-- The loops and generations of the closures a returned command starts. -/
def cmdLoops (c : Option Cmd) : List (Loop × Int) := (cmdJobs c).filterMap Job.loop

/-- The loop and generation of the command whose completion delivers the message. -/
def Msg.loop : Msg → Option (Loop × Int)
  | .cpuStats msg => some (.cpu, msg.id)
  | .gpuStats msg => some (.gpu, msg.id)
  | .netTick msg => some (.net, msg.id)
  | .speedtest msg => some (.speed, msg.Id)
  | .speedtestTrigger id => some (.speed, id)
  | .process msg => some (.proc, msg.id)
  | _ => none

/-- What a step from `m` to `m'` on the message, issuing commands of the loops `ls`, does to one
loop: nothing is issued for it; or its generation is incremented and one command of the new
generation is issued; or the message is the result of a command of its current generation and
one command of that generation is issued in turn. -/
def LoopStep (m m' : MainModel) (msg : Msg) (ls : List (Loop × Int)) (l : Loop) : Prop :=
  (m'.gen l = m.gen l ∧ ls.filter (fun x => decide (x.1 = l)) = []) ∨
  (m'.gen l = m.gen l + 1 ∧ ls.filter (fun x => decide (x.1 = l)) = [(l, m.gen l + 1)]) ∨
  (m'.gen l = m.gen l ∧ ls.filter (fun x => decide (x.1 = l)) = [(l, m.gen l)] ∧
    msg.loop = some (l, m.gen l))

/-! ## The process list -/

/-- Whether the `float64` is a NaN: exponent bits all ones and a non-zero mantissa. -/
def Float64.isNaN (x : Float64) : Bool :=
  (x.bits % 2 ^ 64 / 2 ^ 52) % 2 ^ 11 == 2047 && x.bits % 2 ^ 52 != 0

/-- The place of a `float64` that is not a NaN in the order of the numbers: IEEE-754 values are
ordered as their sign-and-magnitude bit patterns, and the two zeros are equal. -/
def Float64.rank (x : Float64) : Int :=
  if x.bits % 2 ^ 64 < 2 ^ 63 then ((x.bits % 2 ^ 64 : Nat) : Int)
  else -((x.bits % 2 ^ 64 - 2 ^ 63 : Nat) : Int)

/-- The comparison `a > b` of Go on `float64`: false as soon as one side is a NaN. -/
def Float64.gt (a b : Float64) : Bool := !a.isNaN && !b.isNaN && decide (b.rank < a.rank)

/-- The comparison `a >= b` of Go on `float64`: false as soon as one side is a NaN. -/
def Float64.ge (a b : Float64) : Bool := !a.isNaN && !b.isNaN && decide (b.rank ≤ a.rank)

/-- The functions of the Go standard library that `fetchPsData` calls. -/
structure PsLib where
  /-- the lines `strings.Split(strings.TrimSpace(s), "\n")` -/
  lines : String → List String
  /-- the fields `strings.Fields(line)` -/
  fields : String → List String
  /-- the value `strconv.ParseFloat(s, 64)` returns; the error is dropped by the caller -/
  parseFloat : String → Float64
  /-- the slice after `sort.Slice(items, less)` -/
  sortSlice : (ProcessItem → ProcessItem → Bool) → List ProcessItem → List ProcessItem

/-- The loop of `fetchPsData` over the lines: one item per line with at least three fields. -/
def parseLines (lib : PsLib) (lines : List String) : List ProcessItem :=
  lines.filterMap fun line =>
    match lib.fields line with
    | pid :: name :: value :: _ =>
      some { Pid := pid, Name := name, Value := lib.parseFloat value, Unit := "%" }
    | _ => none

/-- The function `fetchPsData`, given what `cmd.Output()` returned for the `ps` command (`none`
when it returned an error). -/
def fetchPsData (lib : PsLib) (output : Option String) : List ProcessItem :=
  match output with
  | none => []
  | some out =>
    let items := parseLines lib (lib.lines out)
    let items := lib.sortSlice (fun a b => a.Value.gt b.Value) items
    if items.length > 5 then items.take 5 else items

/-- What `sort.Slice` guarantees: the result is a rearrangement of the slice, and when `less`
compares a key of the elements (a strict weak ordering) the result is in the order of the
keys. -/
structure PsLib.SortOk (lib : PsLib) : Prop where
  perm : ∀ less xs, (lib.sortSlice less xs).Perm xs
  sorted : ∀ less xs (key : ProcessItem → Int),
    (∀ a ∈ xs, ∀ b ∈ xs, less a b = decide (key a < key b)) →
    (lib.sortSlice less xs).Pairwise (fun a b => key a ≤ key b)

/-- The inner loop of `insertionSortLessFunc` in Go's `sort` package: `data[i]` moves to the
left as long as it is less than its left neighbour.  `done` is `data[a:i]` from right to left. -/
def insertLeft (less : ProcessItem → ProcessItem → Bool) (x : ProcessItem) :
    List ProcessItem → List ProcessItem
  | [] => [x]
  | p :: rest => if less x p then p :: insertLeft less x rest else x :: p :: rest

/-- The function `insertionSortLessFunc` of Go's `sort` package, which is what `sort.Slice` runs
on a slice of at most 12 elements. -/
def insertionSortLessFunc (less : ProcessItem → ProcessItem → Bool) (xs : List ProcessItem) :
    List ProcessItem :=
  (xs.foldl (fun done x => insertLeft less x done) []).reverse

/-- The white space of ASCII text. -/
def isAsciiSpace (c : Char) : Bool :=
  c == ' ' || c == '\t' || c == '\n' || c == '\r'

/-- The text without the white space at its two ends. -/
def trimSpace (cs : List Char) : List Char :=
  ((cs.dropWhile isAsciiSpace).reverse.dropWhile isAsciiSpace).reverse

/-- The pieces of a text between the separators that satisfy `sep`, empty pieces included. -/
def splitChars (sep : Char → Bool) : List Char → List (List Char)
  | [] => [[]]
  | c :: cs =>
    if sep c then [] :: splitChars sep cs
    else
      match splitChars sep cs with
      | [] => [[c]]
      | piece :: rest => (c :: piece) :: rest

/-- A stand-in for the library on ASCII text of at most 12 lines: lines and fields are cut at
white space, `parseFloat` knows the numerals used below and returns 0 (the value Go returns with
a syntax error) for any other text, and the sort is the insertion sort that `sort.Slice` runs on
slices of this length. -/
def testLib : PsLib :=
  { lines := fun s => (splitChars (fun c => c == '\n') (trimSpace s.data)).map String.mk
    fields := fun s =>
      ((splitChars isAsciiSpace s.data).filter (fun f => !f.isEmpty)).map String.mk
    parseFloat := fun s =>
      if s = "nan" then ⟨0x7FF8000000000001⟩
      else if s = "0.0" then ⟨0⟩
      else if s = "0.5" then ⟨0x3FE0000000000000⟩
      else if s = "1.0" then ⟨0x3FF0000000000000⟩
      else if s = "2.0" then ⟨0x4000000000000000⟩
      else if s = "3.0" then ⟨0x4008000000000000⟩
      else if s = "4.0" then ⟨0x4010000000000000⟩
      else if s = "5.0" then ⟨0x4014000000000000⟩
      else ⟨0⟩
    sortSlice := insertionSortLessFunc }

/-- The output of `ps` for seven processes, one of them with a space in its name. -/
def samplePs : String :=
  "1 init 0.5\n2 kthreadd 0.0\n3 Web Content 4.0\n4 go 5.0\n5 ps 1.0\n6 sh 2.0\n7 vim 3.0\n"

/-- The output of `ps` when one process is named "a nan". -/
def nanPs : String := "1 a nan 0.0\n2 b 1.0\n"

/-! ## Theorems -/

/-! ### How `MainModel.Update` dispatches -/

theorem update_return_cpu (env : Env) (m : MainModel) (h : m.Page = "cpu") :
    m.Update env (.key " ")
      = some ({ m with Page := "menu", cpuModel := { m.cpuModel with Polling := false } },
          none) := by
  simp [MainModel.Update, Msg.isKey, h]

theorem update_return_gpu (env : Env) (m : MainModel) (h : m.Page = "gpu") :
    m.Update env (.key " ")
      = some ({ m with Page := "menu", gpuModel := { m.gpuModel with Polling := false } },
          none) := by
  simp [MainModel.Update, Msg.isKey, h]

theorem update_return_network (env : Env) (m : MainModel) (h : m.Page = "network") :
    m.Update env (.key " ")
      = some ({ m with Page := "menu", netModel := { m.netModel with Polling := false } },
          none) := by
  simp [MainModel.Update, Msg.isKey, h]

theorem update_return_processes (env : Env) (m : MainModel) (h : m.Page = "processes") :
    m.Update env (.key " ")
      = some ({ m with Page := "menu", procModel := { m.procModel with Polling := false } },
          none) := by
  simp [MainModel.Update, Msg.isKey, h]

theorem update_return_all (env : Env) (m : MainModel) (h : m.Page = "all") :
    m.Update env (.key " ")
      = some ({ m with
          Page := "menu",
          cpuModel := { m.cpuModel with Polling := false },
          gpuModel := { m.gpuModel with Polling := false },
          netModel := { m.netModel with Polling := false },
          procModel := { m.procModel with Polling := false } }, none) := by
  simp [MainModel.Update, Msg.isKey, h]

/-- Off the five poller pages a key press is handled by the menu logic. -/
theorem update_key_menu (env : Env) (m : MainModel) (s : String) (h : ¬ isPollerPage m.Page) :
    m.Update env (.key s) = m.updateMenu (.key s) := by
  simp only [isPollerPage, not_or] at h
  simp [MainModel.Update, h]

/-- Off the five poller pages a telemetry message changes nothing and yields no command. -/
theorem update_telemetry_menu (env : Env) (m : MainModel) (msg : Msg)
    (h : ¬ isPollerPage m.Page) (ht : msg.isTelemetry = true) :
    m.Update env msg = some (m, none) := by
  simp only [isPollerPage, not_or] at h
  cases msg <;> simp_all [MainModel.Update, MainModel.updateMenu, Msg.isTelemetry]

/-- A batch of four results of which only one can be a command is that result. -/
theorem teaBatch_one_of_four (x : Option Cmd) :
    teaBatch [x, none, none, none] = x ∧ teaBatch [none, x, none, none] = x ∧
    teaBatch [none, none, x, none] = x ∧ teaBatch [none, none, none, x] = x := by
  cases x <;> simp [teaBatch]

/-- On the "all" page a telemetry message is routed to its owning poller: the other three pollers
ignore it, and the batch of the four results holds the owner's command alone. -/
theorem update_telemetry_all (env : Env) (m : MainModel) (msg : Msg) (hp : m.Page = "all")
    (ht : msg.isTelemetry = true) :
    m.Update env msg = some (m.specRoute env msg) := by
  cases msg <;> simp [Msg.isTelemetry] at ht <;>
    simp [MainModel.Update, hp, Msg.isKey, MainModel.specRoute, teaBatch_one_of_four,
      CpuModel.Update, GpuModel.Update, NetworkModel.Update, ProcessModel.Update]

/-- On a single poller's page a telemetry message of that poller's kind goes to its `Update`. -/
theorem update_telemetry_own (env : Env) (m : MainModel) (msg : Msg)
    (ho : msg.owner = some m.Page) :
    m.Update env msg = some (m.specRoute env msg) := by
  cases msg <;> simp [Msg.owner] at ho <;>
    simp [MainModel.Update, ← ho, Msg.isKey, MainModel.specRoute]

/-- On a single poller's page a telemetry message of another poller's kind changes nothing. -/
theorem update_telemetry_foreign (env : Env) (m : MainModel) (msg : Msg)
    (hp : isPollerPage m.Page) (ha : m.Page ≠ "all") (ht : msg.isTelemetry = true)
    (ho : msg.owner ≠ some m.Page) :
    m.Update env msg = some (m, none) := by
  cases m
  dsimp only at hp ha ho ⊢
  rcases hp with h | h | h | h | h
  · subst h
    cases msg <;> simp [Msg.isTelemetry] at ht <;> simp [Msg.owner] at ho <;>
      simp [MainModel.Update, Msg.isKey, CpuModel.Update]
  · subst h
    cases msg <;> simp [Msg.isTelemetry] at ht <;> simp [Msg.owner] at ho <;>
      simp [MainModel.Update, Msg.isKey, GpuModel.Update]
  · subst h
    cases msg <;> simp [Msg.isTelemetry] at ht <;> simp [Msg.owner] at ho <;>
      simp [MainModel.Update, Msg.isKey, NetworkModel.Update]
  · subst h
    cases msg <;> simp [Msg.isTelemetry] at ht <;> simp [Msg.owner] at ho <;>
      simp [MainModel.Update, Msg.isKey, ProcessModel.Update]
  · exact absurd h ha

/-! ### The increment of a Go `int` -/

theorem intInc_eq (x : Int) (h1 : minInt ≤ x) (h2 : x < maxInt) : intInc x = x + 1 := by
  unfold intInc
  unfold minInt at h1
  unfold maxInt at h2
  omega

theorem intInc_maxInt : intInc maxInt = minInt := by decide

/-! ### Invariants of the reachable states -/

theorem cpu_update_keeps (c : CpuModel) (msg : Msg) :
    (c.Update msg).1.Id = c.Id ∧ (c.Update msg).1.Polling = c.Polling := by
  cases msg <;> simp [CpuModel.Update]
  split <;> (try split) <;> simp

theorem gpu_update_keeps (g : GpuModel) (msg : Msg) :
    (g.Update msg).1.Id = g.Id ∧ (g.Update msg).1.Polling = g.Polling := by
  cases msg <;> simp [GpuModel.Update]
  split <;> (try split) <;> simp

theorem net_update_keeps (env : Env) (n : NetworkModel) (msg : Msg) :
    (n.Update env msg).1.Id = n.Id ∧ (n.Update env msg).1.Polling = n.Polling := by
  cases msg <;> simp [NetworkModel.Update]
  · split <;> (try split) <;> (try split) <;> simp
  · split <;> simp
  · split <;> (try split) <;> simp

theorem proc_update_keeps (p : ProcessModel) (msg : Msg) :
    (p.Update msg).1.Id = p.Id ∧ (p.Update msg).1.Polling = p.Polling := by
  cases msg <;> simp [ProcessModel.Update]
  split <;> (try split) <;> simp

theorem inv_initial (info : InterfaceInfo) : (InitialModel info).Inv := by
  constructor <;>
    simp [InitialModel, NewCpuModel, NewGpuModel, NewNetworkModel, NewProcessModel, isPollerPage]

theorem inv_of_sameCore (m m' : MainModel) (hi : m.Inv) (hc : m.SameCore m') : m'.Inv := by
  obtain ⟨h1, h2, h3, h4, h5, h6, h7, h8, h9, h10, h11⟩ := hc
  obtain ⟨i1, i2, i3, i4, i5, i6, i7, i8⟩ := hi
  constructor <;> simp only [h1, h2, h3, h4, h5, h6, h7, h8, h9, h10, h11] <;> assumption

/-- Every message other than a key press leaves the core of the state as it was. -/
theorem update_nonkey_sameCore (env : Env) (m m' : MainModel) (msg : Msg) (c : Option Cmd)
    (hk : ∀ s, msg ≠ .key s) (h : m.Update env msg = some (m', c)) : m.SameCore m' := by
  have hC := cpu_update_keeps m.cpuModel msg
  have hG := gpu_update_keeps m.gpuModel msg
  have hN := net_update_keeps env m.netModel msg
  have hP := proc_update_keeps m.procModel msg
  by_cases p1 : m.Page = "cpu"
  · cases msg <;> simp [MainModel.Update, p1, Msg.isKey] at h hk <;> obtain ⟨rfl, rfl⟩ := h <;>
      constructor <;> simp [p1, hC]
  by_cases p2 : m.Page = "gpu"
  · cases msg <;> simp [MainModel.Update, p2, Msg.isKey] at h hk <;> obtain ⟨rfl, rfl⟩ := h <;>
      constructor <;> simp [p2, hG]
  by_cases p3 : m.Page = "network"
  · cases msg <;> simp [MainModel.Update, p3, Msg.isKey] at h hk <;> obtain ⟨rfl, rfl⟩ := h <;>
      constructor <;> simp [p3, hN]
  by_cases p4 : m.Page = "processes"
  · cases msg <;> simp [MainModel.Update, p4, Msg.isKey] at h hk <;> obtain ⟨rfl, rfl⟩ := h <;>
      constructor <;> simp [p4, hP]
  by_cases p5 : m.Page = "all"
  · cases msg <;> simp [MainModel.Update, p5, Msg.isKey] at h hk <;> obtain ⟨rfl, rfl⟩ := h <;>
      constructor <;> simp [p5, hC, hG, hN, hP]
  cases msg <;> simp [MainModel.Update, p1, p2, p3, p4, p5, MainModel.updateMenu] at h hk <;>
    obtain ⟨rfl, rfl⟩ := h <;> constructor <;> simp

/-- On a poller page every key other than the return key leaves the core of the state as it
was. -/
theorem update_otherkey_sameCore (env : Env) (m m' : MainModel) (s : String) (c : Option Cmd)
    (hp : isPollerPage m.Page) (hs : s ≠ " ") (h : m.Update env (.key s) = some (m', c)) :
    m.SameCore m' := by
  rcases hp with p | p | p | p | p <;>
    simp [MainModel.Update, p, Msg.isKey, hs, CpuModel.Update, GpuModel.Update,
      NetworkModel.Update, ProcessModel.Update] at h <;>
    obtain ⟨rfl, rfl⟩ := h <;> constructor <;> simp [p]

/-- The element the cursor points at in a state that satisfies the invariant. -/
theorem inv_sliceIndex (m : MainModel) (hi : m.Inv) :
    ∃ page, sliceIndex m.choices m.cursor = some page ∧ isPollerPage page := by
  have h1 := hi.choices
  have h2 := hi.cursor_lo
  have h3 := hi.cursor_hi
  have hc : m.cursor = 0 ∨ m.cursor = 1 ∨ m.cursor = 2 ∨ m.cursor = 3 ∨ m.cursor = 4 := by
    omega
  rcases hc with e | e | e | e | e <;> simp [sliceIndex, h1, e, isPollerPage]

/-- Entering a page from the menu keeps the invariant. -/
theorem inv_enter (m : MainModel) (page : String) (hi : m.Inv) (hmenu : m.Page = "menu")
    (hp : isPollerPage page) : (MainModel.enterPage { m with Page := page }).1.Inv := by
  obtain ⟨i1, i2, i3, i4, i5, i6, i7, i8⟩ := hi
  have c0 : m.cpuModel.Polling = false := by
    cases hq : m.cpuModel.Polling
    · rfl
    · rw [hmenu] at i5; exact absurd (i5.1 hq) (by decide)
  have g0 : m.gpuModel.Polling = false := by
    cases hq : m.gpuModel.Polling
    · rfl
    · rw [hmenu] at i6; exact absurd (i6.1 hq) (by decide)
  have n0 : m.netModel.Polling = false := by
    cases hq : m.netModel.Polling
    · rfl
    · rw [hmenu] at i7; exact absurd (i7.1 hq) (by decide)
  have p0 : m.procModel.Polling = false := by
    cases hq : m.procModel.Polling
    · rfl
    · rw [hmenu] at i8; exact absurd (i8.1 hq) (by decide)
  rcases hp with p | p | p | p | p <;> subst p <;>
    constructor <;>
    simp [MainModel.enterPage, isPollerPage, i1, i2, i3, c0, g0, n0, p0]

/-- A key press on the menu page keeps the invariant. -/
theorem inv_menu_key (m m' : MainModel) (s : String) (c : Option Cmd) (hi : m.Inv)
    (hmenu : m.Page = "menu") (h : m.updateMenu (.key s) = some (m', c)) : m'.Inv := by
  simp only [MainModel.updateMenu] at h
  split_ifs at h with k1 k2 k3 k4 k5 k6 k7
  · obtain ⟨rfl, -⟩ := Prod.mk.inj (Option.some.inj h)
    exact hi
  · obtain ⟨page, hs, hp⟩ := inv_sliceIndex m hi
    rw [hs] at h
    obtain ⟨rfl, -⟩ := Prod.ext_iff.mp (Option.some.inj h)
    exact inv_enter m page hi hmenu hp
  · obtain ⟨rfl, -⟩ := Prod.mk.inj (Option.some.inj h)
    obtain ⟨i1, i2, i3, i4, i5, i6, i7, i8⟩ := hi
    constructor <;> first | assumption | (simp only []; omega)
  · obtain ⟨rfl, -⟩ := Prod.mk.inj (Option.some.inj h)
    exact hi
  · obtain ⟨rfl, -⟩ := Prod.mk.inj (Option.some.inj h)
    obtain ⟨i1, i2, i3, i4, i5, i6, i7, i8⟩ := hi
    have hl : (m.choices.length : Int) = 5 := by rw [i1]; rfl
    constructor <;> first | assumption | (simp only []; omega)
  · obtain ⟨rfl, -⟩ := Prod.mk.inj (Option.some.inj h)
    exact hi
  · obtain ⟨rfl, -⟩ := Prod.mk.inj (Option.some.inj h)
    obtain ⟨i1, i2, i3, i4, i5, i6, i7, i8⟩ := hi
    constructor <;> assumption
  · obtain ⟨rfl, -⟩ := Prod.mk.inj (Option.some.inj h)
    exact hi

/-- The return key on a poller page keeps the invariant. -/
theorem inv_return (env : Env) (m m' : MainModel) (c : Option Cmd) (hi : m.Inv)
    (hp : isPollerPage m.Page) (h : m.Update env (.key " ") = some (m', c)) : m'.Inv := by
  obtain ⟨i1, i2, i3, i4, i5, i6, i7, i8⟩ := hi
  rcases hp with p | p | p | p | p
  · rw [update_return_cpu env m p] at h
    obtain ⟨rfl, -⟩ := Prod.mk.inj (Option.some.inj h)
    rw [p] at i6 i7 i8
    constructor <;> simp_all [isPollerPage]
  · rw [update_return_gpu env m p] at h
    obtain ⟨rfl, -⟩ := Prod.mk.inj (Option.some.inj h)
    rw [p] at i5 i7 i8
    constructor <;> simp_all [isPollerPage]
  · rw [update_return_network env m p] at h
    obtain ⟨rfl, -⟩ := Prod.mk.inj (Option.some.inj h)
    rw [p] at i5 i6 i8
    constructor <;> simp_all [isPollerPage]
  · rw [update_return_processes env m p] at h
    obtain ⟨rfl, -⟩ := Prod.mk.inj (Option.some.inj h)
    rw [p] at i5 i6 i7
    constructor <;> simp_all [isPollerPage]
  · rw [update_return_all env m p] at h
    obtain ⟨rfl, -⟩ := Prod.mk.inj (Option.some.inj h)
    constructor <;> simp_all [isPollerPage]

/-- The invariant is kept by every step of `MainModel.Update`. -/
theorem inv_step (env : Env) (m m' : MainModel) (msg : Msg) (c : Option Cmd) (hi : m.Inv)
    (h : m.Update env msg = some (m', c)) : m'.Inv := by
  by_cases hk : ∀ s, msg ≠ .key s
  · exact inv_of_sameCore m m' hi (update_nonkey_sameCore env m m' msg c hk h)
  push_neg at hk
  obtain ⟨s, rfl⟩ := hk
  by_cases hp : isPollerPage m.Page
  · by_cases hs : s = " "
    · subst hs
      exact inv_return env m m' c hi hp h
    · exact inv_of_sameCore m m' hi (update_otherkey_sameCore env m m' s c hp hs h)
  · rw [update_key_menu env m s hp] at h
    have hmenu : m.Page = "menu" := by
      rcases hi.page with p | p
      · exact p
      · exact absurd p hp
    exact inv_menu_key m m' s c hi hmenu h

/-- Every reachable coordinator state satisfies the invariant. -/
theorem reachable_inv (info : InterfaceInfo) (m : MainModel) (h : Reachable info m) : m.Inv := by
  induction h with
  | init => exact inv_initial info
  | step env msg m m' c _ hu ih => exact inv_step env m m' msg c ih hu

/-- A state reachable by `n` messages is reachable. -/
theorem reachable_of_reachableIn (info : InterfaceInfo) (n : Nat) (m : MainModel)
    (h : ReachableIn info n m) : Reachable info m := by
  induction h with
  | init => exact Reachable.init
  | step env msg n m m' c _ hu ih => exact Reachable.step env msg m m' c ih hu

/-- A reachable state is reachable by some number of messages. -/
theorem reachableIn_of_reachable (info : InterfaceInfo) (m : MainModel)
    (h : Reachable info m) : ∃ n, ReachableIn info n m := by
  induction h with
  | init => exact ⟨0, ReachableIn.init⟩
  | step env msg m m' c _ hu ih =>
    obtain ⟨n, hn⟩ := ih
    exact ⟨n + 1, ReachableIn.step env msg n m m' c hn hu⟩

theorem idInv_initial (info : InterfaceInfo) : (InitialModel info).IdInv 0 := by
  constructor <;>
    simp [InitialModel, NewCpuModel, NewGpuModel, NewNetworkModel, NewProcessModel]

theorem idInv_of_sameCore (m m' : MainModel) (n : Int) (hi : m.IdInv n) (hc : m.SameCore m') :
    m'.IdInv (n + 1) := by
  obtain ⟨h1, h2, h3, h4, h5, h6, h7, h8, h9, h10, h11⟩ := hc
  obtain ⟨⟨a1, a2, a3⟩, ⟨b1, b2, b3⟩, ⟨c1, c2, c3⟩, ⟨d1, d2, d3⟩⟩ := hi
  constructor <;> simp only [h4, h5, h6, h7, h8, h9, h10, h11] <;>
    refine ⟨by assumption, by omega, by assumption⟩

theorem idInv_of_models (m m' : MainModel) (n : Int) (hi : m.IdInv n)
    (h1 : m'.cpuModel = m.cpuModel) (h2 : m'.gpuModel = m.gpuModel)
    (h3 : m'.netModel = m.netModel) (h4 : m'.procModel = m.procModel) : m'.IdInv (n + 1) := by
  obtain ⟨⟨a1, a2, a3⟩, ⟨b1, b2, b3⟩, ⟨c1, c2, c3⟩, ⟨d1, d2, d3⟩⟩ := hi
  constructor <;> simp only [h1, h2, h3, h4] <;>
    refine ⟨by assumption, by omega, by assumption⟩

/-- Entering a page from the menu keeps the bounds of the generations, as long as none is at the
largest `int`. -/
theorem idInv_enter (m : MainModel) (page : String) (n : Int) (hi : m.IdInv n)
    (hn : n < maxInt) : (MainModel.enterPage { m with Page := page }).1.IdInv (n + 1) := by
  obtain ⟨⟨a1, a2, a3⟩, ⟨b1, b2, b3⟩, ⟨c1, c2, c3⟩, ⟨d1, d2, d3⟩⟩ := hi
  have hmin : minInt ≤ 0 := by decide
  have ea := intInc_eq m.cpuModel.Id (le_trans hmin a1) (lt_of_le_of_lt a2 hn)
  have eb := intInc_eq m.gpuModel.Id (le_trans hmin b1) (lt_of_le_of_lt b2 hn)
  have ec := intInc_eq m.netModel.Id (le_trans hmin c1) (lt_of_le_of_lt c2 hn)
  have ed := intInc_eq m.procModel.Id (le_trans hmin d1) (lt_of_le_of_lt d2 hn)
  simp only [MainModel.enterPage]
  split_ifs <;> constructor <;> simp only [ea, eb, ec, ed] <;>
    refine ⟨by omega, by omega, ?_⟩ <;> first | (intro _; omega) | assumption

/-- A key press on the menu page keeps the bounds of the generations. -/
theorem idInv_menu_key (m m' : MainModel) (s : String) (c : Option Cmd) (n : Int)
    (hi : m.IdInv n) (hn : n < maxInt) (h : m.updateMenu (.key s) = some (m', c)) :
    m'.IdInv (n + 1) := by
  simp only [MainModel.updateMenu] at h
  split_ifs at h with k1 k2 k3 k4 k5 k6 k7
  · obtain ⟨rfl, -⟩ := Prod.mk.inj (Option.some.inj h)
    exact idInv_of_models m m n hi rfl rfl rfl rfl
  · split at h
    · simp at h
    · rename_i page hs
      obtain ⟨rfl, -⟩ := Prod.ext_iff.mp (Option.some.inj h)
      exact idInv_enter m page n hi hn
  all_goals
    obtain ⟨rfl, -⟩ := Prod.mk.inj (Option.some.inj h)
    exact idInv_of_models m _ n hi rfl rfl rfl rfl

theorem idInv_of_ids (m m' : MainModel) (n : Int) (hi : m.IdInv n)
    (h1 : m'.cpuModel.Id = m.cpuModel.Id) (h2 : m'.gpuModel.Id = m.gpuModel.Id)
    (h3 : m'.netModel.Id = m.netModel.Id) (h4 : m'.procModel.Id = m.procModel.Id)
    (p1 : m'.cpuModel.Polling = true → m.cpuModel.Polling = true)
    (p2 : m'.gpuModel.Polling = true → m.gpuModel.Polling = true)
    (p3 : m'.netModel.Polling = true → m.netModel.Polling = true)
    (p4 : m'.procModel.Polling = true → m.procModel.Polling = true) : m'.IdInv (n + 1) := by
  obtain ⟨⟨a1, a2, a3⟩, ⟨b1, b2, b3⟩, ⟨c1, c2, c3⟩, ⟨d1, d2, d3⟩⟩ := hi
  constructor
  · rw [h1]; exact ⟨a1, by omega, fun h => a3 (p1 h)⟩
  · rw [h2]; exact ⟨b1, by omega, fun h => b3 (p2 h)⟩
  · rw [h3]; exact ⟨c1, by omega, fun h => c3 (p3 h)⟩
  · rw [h4]; exact ⟨d1, by omega, fun h => d3 (p4 h)⟩

/-- The return key on a poller page keeps the bounds of the generations. -/
theorem idInv_return (env : Env) (m m' : MainModel) (c : Option Cmd) (n : Int) (hi : m.IdInv n)
    (hp : isPollerPage m.Page) (h : m.Update env (.key " ") = some (m', c)) :
    m'.IdInv (n + 1) := by
  rcases hp with p | p | p | p | p
  · rw [update_return_cpu env m p] at h
    obtain ⟨rfl, -⟩ := Prod.mk.inj (Option.some.inj h)
    exact idInv_of_ids m _ n hi rfl rfl rfl rfl (by simp) (by simp) (by simp) (by simp)
  · rw [update_return_gpu env m p] at h
    obtain ⟨rfl, -⟩ := Prod.mk.inj (Option.some.inj h)
    exact idInv_of_ids m _ n hi rfl rfl rfl rfl (by simp) (by simp) (by simp) (by simp)
  · rw [update_return_network env m p] at h
    obtain ⟨rfl, -⟩ := Prod.mk.inj (Option.some.inj h)
    exact idInv_of_ids m _ n hi rfl rfl rfl rfl (by simp) (by simp) (by simp) (by simp)
  · rw [update_return_processes env m p] at h
    obtain ⟨rfl, -⟩ := Prod.mk.inj (Option.some.inj h)
    exact idInv_of_ids m _ n hi rfl rfl rfl rfl (by simp) (by simp) (by simp) (by simp)
  · rw [update_return_all env m p] at h
    obtain ⟨rfl, -⟩ := Prod.mk.inj (Option.some.inj h)
    exact idInv_of_ids m _ n hi rfl rfl rfl rfl (by simp) (by simp) (by simp) (by simp)

/-- The bounds of the generations are kept by every step of `MainModel.Update`, as long as no
generation is at the largest `int`. -/
theorem idInv_step (env : Env) (m m' : MainModel) (msg : Msg) (c : Option Cmd) (n : Int)
    (hi : m.IdInv n) (hn : n < maxInt) (h : m.Update env msg = some (m', c)) :
    m'.IdInv (n + 1) := by
  by_cases hk : ∀ s, msg ≠ .key s
  · exact idInv_of_sameCore m m' n hi (update_nonkey_sameCore env m m' msg c hk h)
  push_neg at hk
  obtain ⟨s, rfl⟩ := hk
  by_cases hp : isPollerPage m.Page
  · by_cases hs : s = " "
    · subst hs
      exact idInv_return env m m' c n hi hp h
    · exact idInv_of_sameCore m m' n hi (update_otherkey_sameCore env m m' s c hp hs h)
  · rw [update_key_menu env m s hp] at h
    exact idInv_menu_key m m' s c n hi hn h

/-- After `n` messages, with `n` below 2^63, every generation lies between 0 and `n` and that of
a polling poller is at least 1. -/
theorem reachableIn_idInv (info : InterfaceInfo) (n : Nat) (m : MainModel)
    (h : ReachableIn info n m) (hn : n < 2 ^ 63) : m.IdInv n := by
  induction h with
  | init => exact idInv_initial info
  | step env msg n m m' c _ hu ih =>
    have hlt : (n : Int) < maxInt := by
      unfold maxInt
      have : (2 : Nat) ^ 63 = 9223372036854775808 := by norm_num
      omega
    have := idInv_step env m m' msg c n (ih (by omega)) hlt hu
    simpa using this

/-- A telemetry message whose generation differs from the `Id` of each of the four pollers is
dropped by whichever poller it is routed to. -/
theorem specRoute_stale (env : Env) (m : MainModel) (msg : Msg) (g : Int)
    (hg : msg.generation = some g) (hc : g ≠ m.cpuModel.Id) (hgp : g ≠ m.gpuModel.Id)
    (hn : g ≠ m.netModel.Id) (hp : g ≠ m.procModel.Id) :
    m.specRoute env msg = (m, none) := by
  cases msg <;> simp [Msg.generation] at hg <;> subst hg <;>
    simp [MainModel.specRoute, CpuModel.Update, GpuModel.Update, NetworkModel.Update,
      ProcessModel.Update, hc, hgp, hn, hp]

/-- A message with a generation tag is a telemetry message with an owner. -/
theorem telemetry_of_generation (msg : Msg) (g : Int) (hg : msg.generation = some g) :
    msg.isTelemetry = true ∧ ∃ p, msg.owner = some p ∧ isPollerPage p ∧ p ≠ "all" := by
  cases msg <;> simp [Msg.generation] at hg <;>
    simp [Msg.isTelemetry, Msg.owner, isPollerPage]

/-- The lookup `m.choices[m.cursor]` is the only place where `MainModel.Update` can panic. -/
theorem update_isSome (env : Env) (m : MainModel) (msg : Msg)
    (h : ∃ page, sliceIndex m.choices m.cursor = some page) :
    ∃ m' c, m.Update env msg = some (m', c) := by
  obtain ⟨page, hs⟩ := h
  have key : (m.Update env msg).isSome = true := by
    by_cases p1 : m.Page = "cpu"
    · cases msg <;> simp [MainModel.Update, p1, Msg.isKey]
      split <;> simp
    by_cases p2 : m.Page = "gpu"
    · cases msg <;> simp [MainModel.Update, p2, Msg.isKey]
      split <;> simp
    by_cases p3 : m.Page = "network"
    · cases msg <;> simp [MainModel.Update, p3, Msg.isKey]
      split <;> simp
    by_cases p4 : m.Page = "processes"
    · cases msg <;> simp [MainModel.Update, p4, Msg.isKey]
      split <;> simp
    by_cases p5 : m.Page = "all"
    · cases msg <;> simp [MainModel.Update, p5, Msg.isKey]
      split <;> simp
    cases msg <;> simp [MainModel.Update, p1, p2, p3, p4, p5, MainModel.updateMenu, hs]
    split_ifs <;> simp
  obtain ⟨r, hr⟩ := Option.isSome_iff_exists.mp key
  exact ⟨r.1, r.2, hr⟩

/-- The "up" and "down" keys move the cursor only on the menu page and only inside the menu. -/
theorem update_up_down_cursor (env : Env) (m m' : MainModel) (c : Option Cmd) :
    (m.cursor = 0 → m.Update env (.key "up") = some (m', c) → m'.cursor = 0) ∧
    (m.cursor = (m.choices.length : Int) - 1 → m.Update env (.key "down") = some (m', c) →
      m'.cursor = m.cursor) := by
  constructor
  · intro h0 h
    by_cases hp : isPollerPage m.Page
    · rw [(update_otherkey_sameCore env m m' "up" c hp (by decide) h).cursor, h0]
    · rw [update_key_menu env m "up" hp] at h
      simp [MainModel.updateMenu, h0] at h
      rw [← h.1, h0]
  · intro h4 h
    by_cases hp : isPollerPage m.Page
    · rw [(update_otherkey_sameCore env m m' "down" c hp (by decide) h).cursor]
    · rw [update_key_menu env m "down" hp] at h
      simp [MainModel.updateMenu, h4] at h
      rw [← h.1]

/-- The states used as concrete inputs are reachable: the cursor is moved with "down" and the
page is entered with "enter". -/
theorem reachable_samples :
    Reachable sampleInfo (menuAt 0) ∧ Reachable sampleInfo (menuAt 1) ∧
    Reachable sampleInfo (menuAt 2) ∧ Reachable sampleInfo (menuAt 3) ∧
    Reachable sampleInfo (menuAt 4) ∧
    Reachable sampleInfo (entered 0) ∧ Reachable sampleInfo (entered 1) ∧
    Reachable sampleInfo (entered 2) ∧ Reachable sampleInfo (entered 3) := by
  have r0 : Reachable sampleInfo (menuAt 0) := Reachable.init
  have r1 : Reachable sampleInfo (menuAt 1) :=
    Reachable.step testEnv (.key "down") (menuAt 0) (menuAt 1) none r0 rfl
  have r2 : Reachable sampleInfo (menuAt 2) :=
    Reachable.step testEnv (.key "down") (menuAt 1) (menuAt 2) none r1 rfl
  have r3 : Reachable sampleInfo (menuAt 3) :=
    Reachable.step testEnv (.key "down") (menuAt 2) (menuAt 3) none r2 rfl
  have r4 : Reachable sampleInfo (menuAt 4) :=
    Reachable.step testEnv (.key "down") (menuAt 3) (menuAt 4) none r3 rfl
  exact ⟨r0, r1, r2, r3, r4,
    Reachable.step testEnv (.key "enter") (menuAt 0) (entered 0)
      (MainModel.enterPage { menuAt 0 with Page := "all" }).2 r0 rfl,
    Reachable.step testEnv (.key "enter") (menuAt 1) (entered 1)
      (MainModel.enterPage { menuAt 1 with Page := "network" }).2 r1 rfl,
    Reachable.step testEnv (.key "enter") (menuAt 2) (entered 2)
      (MainModel.enterPage { menuAt 2 with Page := "cpu" }).2 r2 rfl,
    Reachable.step testEnv (.key "enter") (menuAt 3) (entered 3)
      (MainModel.enterPage { menuAt 3 with Page := "gpu" }).2 r3 rfl⟩

/-- The cpu page is reached from the start by three messages: "down", "down", "enter". -/
theorem reachableIn_entered_cpu : ReachableIn sampleInfo 3 (entered 2) :=
  ReachableIn.step testEnv (.key "enter") 2 (menuAt 2) (entered 2)
    (MainModel.enterPage { menuAt 2 with Page := "cpu" }).2
    (ReachableIn.step testEnv (.key "down") 1 (menuAt 1) (menuAt 2) none
      (ReachableIn.step testEnv (.key "down") 0 (menuAt 0) (menuAt 1) none ReachableIn.init rfl)
      rfl)
    rfl

/-- No poller ever returns the quit command. -/
theorem poller_never_quits (env : Env) (c : CpuModel) (g : GpuModel) (n : NetworkModel)
    (p : ProcessModel) (msg : Msg) :
    (c.Update msg).2 ≠ some (Cmd.run .quit) ∧ (g.Update msg).2 ≠ some (Cmd.run .quit) ∧
    (n.Update env msg).2 ≠ some (Cmd.run .quit) ∧ (p.Update msg).2 ≠ some (Cmd.run .quit) := by
  refine ⟨?_, ?_, ?_, ?_⟩
  · cases msg <;> simp [CpuModel.Update, getCpuStats]
    split_ifs <;> simp
  · cases msg <;> simp [GpuModel.Update, getGpuStats]
    split_ifs <;> simp
  · cases msg <;> simp [NetworkModel.Update, getNetworkTick, runSpeedtest] <;>
      split_ifs <;> simp
  · cases msg <;> simp [ProcessModel.Update, getProcessStats]
    split_ifs <;> simp

/-- Entering a page never returns the quit command. -/
theorem enterPage_never_quits (m : MainModel) :
    m.enterPage.2 ≠ some (Cmd.run .quit) := by
  simp only [MainModel.enterPage]
  split_ifs <;>
    simp [CpuModel.Init, GpuModel.Init, NetworkModel.Init, ProcessModel.Init, teaBatch,
      getCpuStats, getGpuStats, getNetworkTick, runSpeedtest, getProcessStats]

/-- A batch that is a plain closure had that closure among its members. -/
theorem teaBatch_eq_run (l : List (Option Cmd)) (j : Job) (h : teaBatch l = some (Cmd.run j)) :
    some (Cmd.run j) ∈ l := by
  have hm : Cmd.run j ∈ l.filterMap id := by
    unfold teaBatch at h
    split at h
    · simp at h
    · rename_i c hc
      rw [hc]
      simp at h
      simp [h]
    · simp at h
  simpa using hm

/-- On a poller page the quit keys change nothing and return no command. -/
theorem update_poller_page_quit_keys (env : Env) (m : MainModel) (s : String)
    (hp : isPollerPage m.Page) (hs : s ≠ " ") : m.Update env (.key s) = some (m, none) := by
  cases m
  dsimp only at hp ⊢
  rcases hp with p | p | p | p | p <;> subst p <;>
    simp [MainModel.Update, Msg.isKey, hs, CpuModel.Update, GpuModel.Update,
      NetworkModel.Update, ProcessModel.Update, teaBatch]

/-- On a poller page `MainModel.Update` never returns the quit command. -/
theorem update_poller_page_no_quit (env : Env) (m m' : MainModel) (msg : Msg)
    (hp : isPollerPage m.Page) : m.Update env msg ≠ some (m', some (Cmd.run .quit)) := by
  obtain ⟨qc, qg, qn, qp⟩ := poller_never_quits env m.cpuModel m.gpuModel m.netModel
    m.procModel msg
  intro h
  by_cases hk : msg.isKey " " = true
  · have e : msg = .key " " := by
      cases msg <;> simp [Msg.isKey] at hk
      rw [hk]
    subst e
    rcases hp with p | p | p | p | p
    · rw [update_return_cpu env m p] at h; simp at h
    · rw [update_return_gpu env m p] at h; simp at h
    · rw [update_return_network env m p] at h; simp at h
    · rw [update_return_processes env m p] at h; simp at h
    · rw [update_return_all env m p] at h; simp at h
  · rcases hp with p | p | p | p | p
    · cases msg <;> simp [MainModel.Update, p, hk, doHeartbeat] at h hk <;> exact qc h.2
    · cases msg <;> simp [MainModel.Update, p, hk, doHeartbeat] at h hk <;> exact qg h.2
    · cases msg <;> simp [MainModel.Update, p, hk, doHeartbeat] at h hk <;> exact qn h.2
    · cases msg <;> simp [MainModel.Update, p, hk, doHeartbeat] at h hk <;> exact qp h.2
    · have hb : ∀ a b c d : Option Cmd, teaBatch [a, b, c, d] = some (Cmd.run .quit) →
          a = some (Cmd.run .quit) ∨ b = some (Cmd.run .quit) ∨ c = some (Cmd.run .quit) ∨
          d = some (Cmd.run .quit) := by
        intro a b c d e
        have hm := teaBatch_eq_run _ _ e
        simp only [List.mem_cons, List.mem_singleton, List.not_mem_nil, or_false] at hm
        rcases hm with x | x | x | x
        · exact Or.inl x.symm
        · exact Or.inr (Or.inl x.symm)
        · exact Or.inr (Or.inr (Or.inl x.symm))
        · exact Or.inr (Or.inr (Or.inr x.symm))
      cases msg <;> simp [MainModel.Update, p, hk, doHeartbeat] at h hk <;>
        rcases hb _ _ _ _ h.2 with x | x | x | x <;>
        first | exact qc x | exact qg x | exact qn x | exact qp x

/-- Off the poller pages `MainModel.Update` returns the quit command exactly for the keys "q" and
"ctrl+c". -/
theorem update_menu_quit (env : Env) (m : MainModel) (msg : Msg) (hp : ¬ isPollerPage m.Page) :
    (∃ m', m.Update env msg = some (m', some (Cmd.run .quit)))
      ↔ (msg = .key "q" ∨ msg = .key "ctrl+c") := by
  have hp2 := hp
  simp only [isPollerPage, not_or] at hp2
  constructor
  · rintro ⟨m', h⟩
    cases msg with
    | key s =>
      rw [update_key_menu env m s hp] at h
      simp only [MainModel.updateMenu] at h
      split_ifs at h with k1 k2
      · rcases k1 with k | k
        · right; rw [k]
        · left; rw [k]
      · split at h
        · simp at h
        · have hq := enterPage_never_quits { m with Page := ‹String› }
          simp at h
          rw [h] at hq
          exact absurd rfl hq
      all_goals simp at h
    | _ => simp [MainModel.Update, hp2, MainModel.updateMenu, doHeartbeat] at h
  · rintro (e | e) <;> subst e <;>
      exact ⟨m, by rw [update_key_menu env m _ hp]; simp [MainModel.updateMenu]⟩

/-! ### Outstanding commands -/

theorem cmdLoops_none : cmdLoops none = [] := rfl

theorem cmdLoops_tick (d : Duration) (j : Job) :
    cmdLoops (some (Cmd.tick d j)) = [j].filterMap Job.loop := rfl

theorem cmdLoops_run (j : Job) : cmdLoops (some (Cmd.run j)) = [j].filterMap Job.loop := rfl

/-- A completed command delivers the message of its own loop and generation, and never an input
message. -/
theorem delivers_loop (j : Job) (msg : Msg) (h : j.delivers msg = true) :
    msg.isInput = false ∧ j.loop = msg.loop := by
  cases j <;> cases msg <;> simp [Job.delivers] at h <;>
    simp [Msg.isInput, Job.loop, Msg.loop, h]

theorem input_loop (msg : Msg) (h : msg.isInput = true) : msg.loop = none := by
  cases msg <;> simp [Msg.isInput] at h <;> rfl

theorem loopStep_quiet (m m' : MainModel) (msg : Msg) (c : Option Cmd) (l : Loop)
    (hg : ∀ k, m'.gen k = m.gen k) (hc : cmdLoops c = []) : LoopStep m m' msg (cmdLoops c) l := by
  left
  rw [hc]
  exact ⟨hg l, rfl⟩

theorem gen_of_sameCore (m m' : MainModel) (hg : m.SameCore m') (k : Loop) :
    m'.gen k = m.gen k := by
  cases k <;> simp [MainModel.gen, hg.cpuId, hg.gpuId, hg.netId, hg.procId]

/-- Routing a telemetry message to its poller issues at most the next command of the loop and
generation of that message. -/
theorem specRoute_loopStep (env : Env) (m : MainModel) (msg : Msg) (l : Loop) :
    LoopStep m (m.specRoute env msg).1 msg (cmdLoops (m.specRoute env msg).2) l := by
  cases msg with
  | cpuStats x =>
    simp only [MainModel.specRoute, CpuModel.Update]
    split_ifs <;> cases l <;>
      simp_all [LoopStep, MainModel.gen, cmdLoops_none, cmdLoops_tick, getCpuStats, Job.loop,
        Msg.loop]
  | gpuStats x =>
    simp only [MainModel.specRoute, GpuModel.Update]
    split_ifs <;> cases l <;>
      simp_all [LoopStep, MainModel.gen, cmdLoops_none, cmdLoops_tick, getGpuStats, Job.loop,
        Msg.loop]
  | netTick x =>
    simp only [MainModel.specRoute, NetworkModel.Update]
    split_ifs <;> cases l <;>
      simp_all [LoopStep, MainModel.gen, cmdLoops_none, cmdLoops_tick, getNetworkTick, Job.loop,
        Msg.loop]
  | speedtest x =>
    simp only [MainModel.specRoute, NetworkModel.Update]
    split_ifs <;> cases l <;>
      simp_all [LoopStep, MainModel.gen, cmdLoops_none, cmdLoops_tick, Job.loop, Msg.loop]
  | speedtestTrigger x =>
    simp only [MainModel.specRoute, NetworkModel.Update]
    split_ifs <;> cases l <;>
      simp_all [LoopStep, MainModel.gen, cmdLoops_none, cmdLoops_run, runSpeedtest, Job.loop,
        Msg.loop]
  | process x =>
    simp only [MainModel.specRoute, ProcessModel.Update]
    split_ifs <;> cases l <;>
      simp_all [LoopStep, MainModel.gen, cmdLoops_none, cmdLoops_tick, getProcessStats, Job.loop,
        Msg.loop]
  | _ => exact loopStep_quiet m m _ none l (fun _ => rfl) rfl

/-- Entering a page from the menu increments the generation of each loop it starts and issues
one command of the new generation for it, as long as no generation is at the largest `int`. -/
theorem enterPage_loopStep (m : MainModel) (page : String) (l : Loop)
    (hr : ∀ k, minInt ≤ m.gen k ∧ m.gen k < maxInt) :
    LoopStep m (MainModel.enterPage { m with Page := page }).1 (.key "enter")
      (cmdLoops (MainModel.enterPage { m with Page := page }).2) l := by
  have ea := intInc_eq m.cpuModel.Id (hr .cpu).1 (hr .cpu).2
  have eb := intInc_eq m.gpuModel.Id (hr .gpu).1 (hr .gpu).2
  have ec := intInc_eq m.netModel.Id (hr .net).1 (hr .net).2
  have ed := intInc_eq m.procModel.Id (hr .proc).1 (hr .proc).2
  simp only [MainModel.enterPage]
  split_ifs <;> cases l <;>
    simp [LoopStep, MainModel.gen, cmdLoops, cmdJobs, cmdLeaves, Cmd.leaves, Cmd.leavesList,
      Cmd.job, teaBatch, CpuModel.Init, GpuModel.Init, NetworkModel.Init, ProcessModel.Init,
      getCpuStats, getGpuStats, getNetworkTick, runSpeedtest, getProcessStats, Job.loop,
      ea, eb, ec, ed]

/-- A window resize or a message of another kind returns no command. -/
theorem update_quiet_cmd (env : Env) (m m' : MainModel) (msg : Msg) (c : Option Cmd)
    (hq : (∃ w h, msg = .windowSize w h) ∨ msg = .other)
    (h : m.Update env msg = some (m', c)) : c = none := by
  have hb : teaBatch [none, none, none, none] = none := rfl
  rcases hq with ⟨w, ht, e⟩ | e <;> subst e
  · by_cases p1 : m.Page = "cpu"
    · simp [MainModel.Update, p1, Msg.isKey, CpuModel.Update] at h; exact h.2.symm
    by_cases p2 : m.Page = "gpu"
    · simp [MainModel.Update, p2, Msg.isKey, GpuModel.Update] at h; exact h.2.symm
    by_cases p3 : m.Page = "network"
    · simp [MainModel.Update, p3, Msg.isKey, NetworkModel.Update] at h; exact h.2.symm
    by_cases p4 : m.Page = "processes"
    · simp [MainModel.Update, p4, Msg.isKey, ProcessModel.Update] at h; exact h.2.symm
    by_cases p5 : m.Page = "all"
    · simp [MainModel.Update, p5, Msg.isKey, CpuModel.Update, GpuModel.Update,
        NetworkModel.Update, ProcessModel.Update, hb] at h
      exact h.2.symm
    simp [MainModel.Update, p1, p2, p3, p4, p5, MainModel.updateMenu] at h
    exact h.2.symm
  · by_cases p1 : m.Page = "cpu"
    · simp [MainModel.Update, p1, Msg.isKey, CpuModel.Update] at h; exact h.2.symm
    by_cases p2 : m.Page = "gpu"
    · simp [MainModel.Update, p2, Msg.isKey, GpuModel.Update] at h; exact h.2.symm
    by_cases p3 : m.Page = "network"
    · simp [MainModel.Update, p3, Msg.isKey, NetworkModel.Update] at h; exact h.2.symm
    by_cases p4 : m.Page = "processes"
    · simp [MainModel.Update, p4, Msg.isKey, ProcessModel.Update] at h; exact h.2.symm
    by_cases p5 : m.Page = "all"
    · simp [MainModel.Update, p5, Msg.isKey, CpuModel.Update, GpuModel.Update,
        NetworkModel.Update, ProcessModel.Update, hb] at h
      exact h.2.symm
    simp [MainModel.Update, p1, p2, p3, p4, p5, MainModel.updateMenu] at h
    exact h.2.symm

/-- A key press on the menu page: what it does to a loop. -/
theorem updateMenu_loopStep (m m' : MainModel) (s : String) (c : Option Cmd) (l : Loop)
    (hr : ∀ k, minInt ≤ m.gen k ∧ m.gen k < maxInt)
    (h : m.updateMenu (.key s) = some (m', c)) :
    LoopStep m m' (.key s) (cmdLoops c) l := by
  simp only [MainModel.updateMenu] at h
  split_ifs at h with k1 k2 k3 k4 k5 k6 k7
  · obtain ⟨rfl, rfl⟩ := Prod.mk.inj (Option.some.inj h)
    exact loopStep_quiet m m _ _ l (fun _ => rfl) rfl
  · split at h
    · simp at h
    · rename_i page hs
      obtain ⟨rfl, rfl⟩ := Prod.ext_iff.mp (Option.some.inj h)
      rw [k2]
      exact enterPage_loopStep m page l hr
  all_goals
    obtain ⟨rfl, rfl⟩ := Prod.mk.inj (Option.some.inj h)
    exact loopStep_quiet m _ _ none l (fun k => by cases k <;> rfl) rfl

/-- What one step of `MainModel.Update` does to a loop, as long as no generation is at the
largest `int`. -/
theorem update_loopStep (env : Env) (m m' : MainModel) (msg : Msg) (c : Option Cmd) (l : Loop)
    (hr : ∀ k, minInt ≤ m.gen k ∧ m.gen k < maxInt)
    (h : m.Update env msg = some (m', c)) : LoopStep m m' msg (cmdLoops c) l := by
  by_cases ht : msg.isTelemetry = true
  · have hr : m.Update env msg = some (m.specRoute env msg) ∨ m.Update env msg = some (m, none) := by
      by_cases hp : isPollerPage m.Page
      · by_cases ha : m.Page = "all"
        · exact Or.inl (update_telemetry_all env m msg ha ht)
        · by_cases ho : msg.owner = some m.Page
          · exact Or.inl (update_telemetry_own env m msg ho)
          · exact Or.inr (update_telemetry_foreign env m msg hp ha ht ho)
      · exact Or.inr (update_telemetry_menu env m msg hp ht)
    rcases hr with e | e
    · rw [e] at h
      obtain ⟨rfl, rfl⟩ := Prod.ext_iff.mp (Option.some.inj h)
      exact specRoute_loopStep env m msg l
    · rw [e] at h
      obtain ⟨rfl, rfl⟩ := Prod.mk.inj (Option.some.inj h)
      exact loopStep_quiet m m msg none l (fun _ => rfl) rfl
  · cases msg with
    | key s =>
      by_cases hp : isPollerPage m.Page
      · by_cases hs : s = " "
        · subst hs
          have hq : (∀ k, m'.gen k = m.gen k) ∧ c = none := by
            rcases hp with p | p | p | p | p
            · rw [update_return_cpu env m p] at h
              obtain ⟨rfl, rfl⟩ := Prod.mk.inj (Option.some.inj h)
              exact ⟨fun k => by cases k <;> rfl, rfl⟩
            · rw [update_return_gpu env m p] at h
              obtain ⟨rfl, rfl⟩ := Prod.mk.inj (Option.some.inj h)
              exact ⟨fun k => by cases k <;> rfl, rfl⟩
            · rw [update_return_network env m p] at h
              obtain ⟨rfl, rfl⟩ := Prod.mk.inj (Option.some.inj h)
              exact ⟨fun k => by cases k <;> rfl, rfl⟩
            · rw [update_return_processes env m p] at h
              obtain ⟨rfl, rfl⟩ := Prod.mk.inj (Option.some.inj h)
              exact ⟨fun k => by cases k <;> rfl, rfl⟩
            · rw [update_return_all env m p] at h
              obtain ⟨rfl, rfl⟩ := Prod.mk.inj (Option.some.inj h)
              exact ⟨fun k => by cases k <;> rfl, rfl⟩
          exact loopStep_quiet m m' _ c l hq.1 (by rw [hq.2]; rfl)
        · rw [update_poller_page_quit_keys env m s hp hs] at h
          obtain ⟨rfl, rfl⟩ := Prod.mk.inj (Option.some.inj h)
          exact loopStep_quiet m m _ none l (fun _ => rfl) rfl
      · rw [update_key_menu env m s hp] at h
        exact updateMenu_loopStep m m' s c l hr h
    | heartbeat t =>
      have hg := update_nonkey_sameCore env m m' _ c (by simp) h
      simp [MainModel.Update] at h
      refine loopStep_quiet m m' _ c l (gen_of_sameCore m m' hg) ?_
      rw [← h.2]
      rfl
    | windowSize w hh =>
      have hg := update_nonkey_sameCore env m m' _ c (by simp) h
      have hc := update_quiet_cmd env m m' _ c (Or.inl ⟨w, hh, rfl⟩) h
      exact loopStep_quiet m m' _ c l (gen_of_sameCore m m' hg) (by rw [hc]; rfl)
    | other =>
      have hg := update_nonkey_sameCore env m m' _ c (by simp) h
      have hc := update_quiet_cmd env m m' _ c (Or.inr rfl) h
      exact loopStep_quiet m m' _ c l (gen_of_sameCore m m' hg) (by rw [hc]; rfl)
    | _ => simp [Msg.isTelemetry] at ht

theorem countP_loop (js : List Job) (l : Loop) (G : Int) :
    js.countP (fun j => decide (j.loop = some (l, G)))
      = ((js.filterMap Job.loop).filter (fun x => decide (x.1 = l))).count (l, G) := by
  induction js with
  | nil => rfl
  | cons j js ih =>
    cases hj : j.loop with
    | none => simp [List.countP_cons, hj, ih, List.filterMap_cons]
    | some x =>
      obtain ⟨l', g'⟩ := x
      by_cases hl : l' = l
      · subst hl
        by_cases hg : g' = G
        · subst hg
          simp [List.countP_cons, hj, ih, List.filterMap_cons, List.filter_cons]
        · have hne : ((l', g') : Loop × Int) ≠ (l', G) := by
            intro e; exact hg (Prod.mk.inj e).2
          simp [List.countP_cons, hj, ih, List.filterMap_cons, List.filter_cons, hg,
            List.count_cons, hne]
      · simp [List.countP_cons, hj, ih, List.filterMap_cons, List.filter_cons, hl]

theorem mem_loop (js : List Job) (l : Loop) (g : Int) (j : Job) (hj : j ∈ js)
    (hl : j.loop = some (l, g)) :
    (l, g) ∈ (js.filterMap Job.loop).filter (fun x => decide (x.1 = l)) := by
  rw [List.mem_filter]
  refine ⟨?_, by simp⟩
  rw [List.mem_filterMap]
  exact ⟨j, hj, hl⟩

theorem countP_erase_le (js : List Job) (j : Job) (p : Job → Bool) (hj : j ∈ js)
    (hp : p j = true) : (js.erase j).countP p + 1 = js.countP p := by
  have h := (List.perm_cons_erase hj).countP_eq p
  rw [h, List.countP_cons, if_pos hp]

/-- The invariant of one polling loop is kept when a state with the outstanding commands `base`
takes a step of `MainModel.Update` and the returned commands are added. -/
theorem loop_inv_add (m m' : MainModel) (msg : Msg) (c : Option Cmd) (l : Loop)
    (pending base : List Job) (hsub : ∀ j ∈ base, j ∈ pending)
    (hle : ∀ p : Job → Bool, base.countP p ≤ pending.countP p)
    (hdel : msg.loop = some (l, m.gen l) →
      base.countP (fun j => decide (j.loop = some (l, m.gen l))) + 1
        = pending.countP (fun j => decide (j.loop = some (l, m.gen l))))
    (hstep : LoopStep m m' msg (cmdLoops c) l)
    (hb : ∀ j ∈ pending, ∀ g, j.loop = some (l, g) → g ≤ m.gen l)
    (hc : pending.countP (fun j => decide (j.loop = some (l, m.gen l))) ≤ 1) :
    (∀ j ∈ base ++ cmdJobs c, ∀ g, j.loop = some (l, g) → g ≤ m'.gen l) ∧
    (base ++ cmdJobs c).countP (fun j => decide (j.loop = some (l, m'.gen l))) ≤ 1 := by
  have hcnt := countP_loop (cmdJobs c) l (m'.gen l)
  have hmem := mem_loop (cmdJobs c) l
  unfold cmdLoops at hstep
  rcases hstep with ⟨hg, hf⟩ | ⟨hg, hf⟩ | ⟨hg, hf, hm⟩
  · rw [hf] at hcnt hmem
    constructor
    · intro j hj g hl
      rcases List.mem_append.mp hj with h1 | h2
      · rw [hg]; exact hb j (hsub j h1) g hl
      · exact absurd (hmem g j h2 hl) (List.not_mem_nil _)
    · rw [List.countP_append, hcnt, hg]
      have := hle (fun j => decide (j.loop = some (l, m.gen l)))
      simp only [List.count_nil, add_zero]
      omega
  · rw [hf] at hcnt hmem
    constructor
    · intro j hj g hl
      rcases List.mem_append.mp hj with h1 | h2
      · have := hb j (hsub j h1) g hl
        omega
      · have h3 := hmem g j h2 hl
        rw [List.mem_singleton] at h3
        have := (Prod.mk.inj h3).2
        omega
    · rw [List.countP_append, hcnt, hg]
      have h0 : base.countP (fun j => decide (j.loop = some (l, m.gen l + 1))) = 0 := by
        rw [List.countP_eq_zero]
        intro j hj
        simp only [decide_eq_true_eq]
        intro hl
        have := hb j (hsub j hj) _ hl
        omega
      rw [h0]
      simp
  · rw [hf] at hcnt hmem
    constructor
    · intro j hj g hl
      rcases List.mem_append.mp hj with h1 | h2
      · rw [hg]; exact hb j (hsub j h1) g hl
      · have h3 := hmem g j h2 hl
        rw [List.mem_singleton] at h3
        have := (Prod.mk.inj h3).2
        omega
    · rw [List.countP_append, hcnt, hg]
      have := hdel hm
      simp only [List.count_singleton_self]
      omega

/-- The invariant of the event loop for one polling loop: no outstanding command of the loop is
tagged with a generation beyond the current one, and at most one is tagged with the current
one. -/
theorem program_inv_step (s s' : Program) (l : Loop) (hs : Program.Step s s')
    (hr : ∀ k, minInt ≤ s.model.gen k ∧ s.model.gen k < maxInt)
    (hb : ∀ j ∈ s.pending, ∀ g, j.loop = some (l, g) → g ≤ s.model.gen l)
    (hc : s.current l ≤ 1) :
    (∀ j ∈ s'.pending, ∀ g, j.loop = some (l, g) → g ≤ s'.model.gen l) ∧ s'.current l ≤ 1 := by
  cases hs with
  | input env msg s m' c hi hu =>
    have hstep := update_loopStep env s.model m' msg c l hr hu
    refine loop_inv_add s.model m' msg c l s.pending s.pending (fun _ h => h) (fun _ => le_refl _)
      ?_ hstep hb hc
    intro hm
    rw [input_loop msg hi] at hm
    exact absurd hm (by simp)
  | deliver env j msg s m' c hj hd hu =>
    have hstep := update_loopStep env s.model m' msg c l hr hu
    refine loop_inv_add s.model m' msg c l s.pending (s.pending.erase j)
      (fun _ h => List.mem_of_mem_erase h)
      (fun p => List.Sublist.countP_le p (List.erase_sublist j s.pending)) ?_ hstep hb hc
    intro hm
    apply countP_erase_le s.pending j _ hj
    rw [(delivers_loop j msg hd).2, hm]
    simp

/-- The coordinator state of a program reachable in `n` turns is reachable by `n` messages. -/
theorem model_reachableIn (info : InterfaceInfo) (n : Nat) (s : Program)
    (h : Program.ReachableIn info n s) : ReachableIn info n s.model := by
  induction h with
  | init => exact ReachableIn.init
  | step n s s' _ hs ih =>
    cases hs with
    | input env msg s m' c _ hu => exact ReachableIn.step env msg n s.model m' c ih hu
    | deliver env j msg s m' c _ _ hu => exact ReachableIn.step env msg n s.model m' c ih hu

/-- A reachable state of the event loop is reached in some number of turns, and conversely. -/
theorem program_reachable_iff (info : InterfaceInfo) (s : Program) :
    Program.Reachable info s ↔ ∃ n, Program.ReachableIn info n s := by
  constructor
  · intro h
    induction h with
    | init => exact ⟨0, Program.ReachableIn.init⟩
    | step s s' _ hs ih =>
      obtain ⟨n, hn⟩ := ih
      exact ⟨n + 1, Program.ReachableIn.step n s s' hn hs⟩
  · rintro ⟨n, h⟩
    induction h with
    | init => exact Program.Reachable.init
    | step n s s' _ hs ih => exact Program.Reachable.step s s' ih hs

/-- After fewer than 2^63 messages no generation is at the largest `int`. -/
theorem reachableIn_range (info : InterfaceInfo) (n : Nat) (m : MainModel)
    (h : ReachableIn info n m) (hn : n + 1 < 2 ^ 63) (k : Loop) :
    minInt ≤ m.gen k ∧ m.gen k < maxInt := by
  have hi := reachableIn_idInv info n m h (by omega)
  obtain ⟨⟨a1, a2, -⟩, ⟨b1, b2, -⟩, ⟨c1, c2, -⟩, ⟨d1, d2, -⟩⟩ := hi
  have h63 : (2 : Nat) ^ 63 = 9223372036854775808 := by norm_num
  unfold minInt maxInt
  cases k <;> simp only [MainModel.gen] <;> omega

/-- In every state of the event loop reachable in fewer than 2^63 turns and for every polling
loop, no outstanding command is tagged with a generation beyond the current one and at most one
is tagged with the current one. -/
theorem program_inv (info : InterfaceInfo) (n : Nat) (s : Program) (l : Loop)
    (h : Program.ReachableIn info n s) (hn : n < 2 ^ 63) :
    (∀ j ∈ s.pending, ∀ g, j.loop = some (l, g) → g ≤ s.model.gen l) ∧ s.current l ≤ 1 := by
  induction h with
  | init =>
    cases l <;>
      simp [Program.current, cmdJobs, cmdLeaves, MainModel.Init, teaBatch, Cmd.leaves,
        Cmd.leavesList, Cmd.job, doHeartbeat, Job.loop, MainModel.gen, InitialModel,
        NewCpuModel, NewGpuModel, NewNetworkModel, NewProcessModel, List.countP_cons]
  | step n s s' hprev hs ih =>
    have ih2 := ih (by omega)
    exact program_inv_step s s' l hs
      (reachableIn_range info n s.model (model_reachableIn info n s hprev) hn) ih2.1 ih2.2

/-- The program after the confirm key on the initial menu is reachable: one input step from the
start. -/
theorem reachable_afterEnterAll : Program.Reachable sampleInfo afterEnterAll :=
  Program.Reachable.step ⟨InitialModel sampleInfo, cmdJobs (InitialModel sampleInfo).Init⟩ _
    Program.Reachable.init
    (Program.Step.input testEnv (.key "enter")
      ⟨InitialModel sampleInfo, cmdJobs (InitialModel sampleInfo).Init⟩
      (entered 0) (MainModel.enterPage { menuAt 0 with Page := "all" }).2 rfl rfl)

/-- The program after the confirm key on the initial menu is reached in one turn. -/
theorem reachableIn_afterEnterAll : Program.ReachableIn sampleInfo 1 afterEnterAll :=
  Program.ReachableIn.step 0 ⟨InitialModel sampleInfo, cmdJobs (InitialModel sampleInfo).Init⟩ _
    Program.ReachableIn.init
    (Program.Step.input testEnv (.key "enter")
      ⟨InitialModel sampleInfo, cmdJobs (InitialModel sampleInfo).Init⟩
      (entered 0) (MainModel.enterPage { menuAt 0 with Page := "all" }).2 rfl rfl)

/-! ### The process list -/

theorem insertLeft_perm (less : ProcessItem → ProcessItem → Bool) (x : ProcessItem)
    (l : List ProcessItem) : (insertLeft less x l).Perm (x :: l) := by
  induction l with
  | nil => exact List.Perm.refl _
  | cons p l ih =>
    simp only [insertLeft]
    split_ifs
    · exact (List.Perm.cons p ih).trans (List.Perm.swap x p l)
    · exact List.Perm.refl _

theorem foldl_insertLeft_perm (less : ProcessItem → ProcessItem → Bool)
    (xs done : List ProcessItem) :
    (xs.foldl (fun done x => insertLeft less x done) done).Perm (done ++ xs) := by
  induction xs generalizing done with
  | nil => simp
  | cons x xs ih =>
    simp only [List.foldl_cons]
    refine (ih (insertLeft less x done)).trans ?_
    refine (List.Perm.append_right xs (insertLeft_perm less x done)).trans ?_
    simp only [List.cons_append]
    exact (List.perm_middle).symm

theorem insertionSortLessFunc_perm (less : ProcessItem → ProcessItem → Bool)
    (l : List ProcessItem) : (insertionSortLessFunc less l).Perm l := by
  unfold insertionSortLessFunc
  refine (List.reverse_perm _).trans ?_
  simpa using foldl_insertLeft_perm less l []

theorem insertLeft_sorted (less : ProcessItem → ProcessItem → Bool) (key : ProcessItem → Int)
    (x : ProcessItem) (l : List ProcessItem)
    (hk : ∀ p ∈ l, less x p = decide (key x < key p))
    (hl : l.Pairwise (fun a b => key b ≤ key a)) :
    (insertLeft less x l).Pairwise (fun a b => key b ≤ key a) := by
  induction l with
  | nil => simp [insertLeft]
  | cons p l ih =>
    simp only [insertLeft]
    have hp := hk p (List.mem_cons_self p l)
    rw [List.pairwise_cons] at hl
    split_ifs with h
    · rw [h] at hp
      have hxp : key x < key p := of_decide_eq_true hp.symm
      rw [List.pairwise_cons]
      refine ⟨?_, ih (fun y hy => hk y (List.mem_cons_of_mem p hy)) hl.2⟩
      intro y hy
      rcases List.mem_cons.mp ((insertLeft_perm less x l).subset hy) with e | e
      · rw [e]; omega
      · exact hl.1 y e
    · have hxp : ¬ key x < key p := by
        intro hlt
        rw [decide_eq_true hlt] at hp
        exact h hp
      rw [List.pairwise_cons]
      refine ⟨?_, List.pairwise_cons.mpr hl⟩
      intro y hy
      rcases List.mem_cons.mp hy with e | e
      · rw [e]; omega
      · have := hl.1 y e
        omega

theorem foldl_insertLeft_sorted (less : ProcessItem → ProcessItem → Bool)
    (key : ProcessItem → Int) (xs done : List ProcessItem)
    (hk : ∀ a ∈ done ++ xs, ∀ b ∈ done ++ xs, less a b = decide (key a < key b))
    (hd : done.Pairwise (fun a b => key b ≤ key a)) :
    (xs.foldl (fun done x => insertLeft less x done) done).Pairwise
      (fun a b => key b ≤ key a) := by
  induction xs generalizing done with
  | nil => simpa using hd
  | cons x xs ih =>
    simp only [List.foldl_cons]
    have hsub : ∀ y ∈ insertLeft less x done ++ xs, y ∈ done ++ x :: xs := by
      intro y hy
      rcases List.mem_append.mp hy with e | e
      · rcases List.mem_cons.mp ((insertLeft_perm less x done).subset e) with e2 | e2
        · rw [e2]; simp
        · simp [e2]
      · simp [e]
    apply ih
    · intro a ha b hb
      exact hk a (hsub a ha) b (hsub b hb)
    · apply insertLeft_sorted less key x done _ hd
      intro p hp
      exact hk x (by simp) p (by simp [hp])

theorem insertionSortLessFunc_sorted (less : ProcessItem → ProcessItem → Bool)
    (key : ProcessItem → Int) (l : List ProcessItem)
    (hk : ∀ a ∈ l, ∀ b ∈ l, less a b = decide (key a < key b)) :
    (insertionSortLessFunc less l).Pairwise (fun x y => key x ≤ key y) := by
  unfold insertionSortLessFunc
  rw [List.pairwise_reverse]
  exact foldl_insertLeft_sorted less key l [] (by simpa using hk) List.Pairwise.nil

/-- The insertion sort of the stand-in library does what `sort.Slice` guarantees. -/
theorem testLib_sortOk : testLib.SortOk :=
  ⟨fun less xs => insertionSortLessFunc_perm less xs,
   fun less xs key hk => insertionSortLessFunc_sorted less key xs hk⟩

/-! ### The claims -/

/-- C1 (staleness).  For each of the four pollers, a generation-tagged message of that poller's
kind whose id differs from the poller's `Id` is discarded: `Update` returns the state as it was,
every field unchanged, and no command. -/
theorem stale_message_discarded (env : Env) (c : CpuModel) (g : GpuModel) (n : NetworkModel)
    (p : ProcessModel) (mc : CpuStatsMsg) (mg : GpuStatsMsg) (mt : NetTickMsg)
    (ms : SpeedtestMsg) (tr : Int) (mp : ProcessMsg) :
    (mc.id ≠ c.Id → c.Update (.cpuStats mc) = (c, none)) ∧
    (mg.id ≠ g.Id → g.Update (.gpuStats mg) = (g, none)) ∧
    (mt.id ≠ n.Id → n.Update env (.netTick mt) = (n, none)) ∧
    (ms.Id ≠ n.Id → n.Update env (.speedtest ms) = (n, none)) ∧
    (tr ≠ n.Id → n.Update env (.speedtestTrigger tr) = (n, none)) ∧
    (mp.id ≠ p.Id → p.Update (.process mp) = (p, none)) := by
  refine ⟨?_, ?_, ?_, ?_, ?_, ?_⟩ <;> intro h
  · simp [CpuModel.Update, h]
  · simp [GpuModel.Update, h]
  · simp [NetworkModel.Update, h]
  · simp [NetworkModel.Update, h]
  · simp [NetworkModel.Update, h]
  · simp [ProcessModel.Update, h]

/-- Witness of C1: results of generation 5 delivered to the pollers of the "all" page, which are
at generation 1. -/
theorem stale_message_discarded_witness :
    ((sampleCpuMsg 5).id ≠ (entered 0).cpuModel.Id ∧
      (entered 0).cpuModel.Update (.cpuStats (sampleCpuMsg 5))
        = ((entered 0).cpuModel, none)) ∧
    ((sampleGpuMsg 5).id ≠ (entered 0).gpuModel.Id ∧
      (entered 0).gpuModel.Update (.gpuStats (sampleGpuMsg 5))
        = ((entered 0).gpuModel, none)) ∧
    ((sampleNetMsg 5).id ≠ (entered 0).netModel.Id ∧
      (entered 0).netModel.Update testEnv (.netTick (sampleNetMsg 5))
        = ((entered 0).netModel, none)) ∧
    ((sampleSpeedMsg 5).Id ≠ (entered 0).netModel.Id ∧
      (entered 0).netModel.Update testEnv (.speedtest (sampleSpeedMsg 5))
        = ((entered 0).netModel, none)) ∧
    ((5 : Int) ≠ (entered 0).netModel.Id ∧
      (entered 0).netModel.Update testEnv (.speedtestTrigger 5)
        = ((entered 0).netModel, none)) ∧
    ((sampleProcMsg 5).id ≠ (entered 0).procModel.Id ∧
      (entered 0).procModel.Update (.process (sampleProcMsg 5))
        = ((entered 0).procModel, none)) :=
  have h := stale_message_discarded testEnv (entered 0).cpuModel (entered 0).gpuModel
    (entered 0).netModel (entered 0).procModel (sampleCpuMsg 5) (sampleGpuMsg 5)
    (sampleNetMsg 5) (sampleSpeedMsg 5) 5 (sampleProcMsg 5)
  ⟨⟨by decide, h.1 (by decide)⟩, ⟨by decide, h.2.1 (by decide)⟩,
   ⟨by decide, h.2.2.1 (by decide)⟩, ⟨by decide, h.2.2.2.1 (by decide)⟩,
   ⟨by decide, h.2.2.2.2.1 (by decide)⟩, ⟨by decide, h.2.2.2.2.2 (by decide)⟩⟩

/-- C2 (generation monotonicity).  On the menu page the confirm key performs `Id++` on the `Id`
of each poller the chosen page starts (its own poller, or all four for "all") and leaves the
other `Id`s as they were, the chosen page being the element `m.choices[m.cursor]` the cursor
points at: the `Id` of a started poller grows by exactly 1 whenever it is an `int` below the
largest one, and at the largest `int`, which an `Id` reaches after 2^63 - 1 starts, `Id++` wraps
around as `intInc` says.  On a non-menu page the return key leaves all four `Id`s as they
were. -/
theorem generation_monotone (env : Env) (m : MainModel) :
    (∀ page, m.Page = "menu" → sliceIndex m.choices m.cursor = some page →
      ∃ m' c, m.Update env (.key "enter") = some (m', c) ∧
        m'.cpuModel.Id
          = (if page = "cpu" ∨ page = "all" then intInc m.cpuModel.Id else m.cpuModel.Id) ∧
        m'.gpuModel.Id
          = (if page = "gpu" ∨ page = "all" then intInc m.gpuModel.Id else m.gpuModel.Id) ∧
        m'.netModel.Id
          = (if page = "network" ∨ page = "all" then intInc m.netModel.Id else m.netModel.Id) ∧
        m'.procModel.Id
          = (if page = "processes" ∨ page = "all" then intInc m.procModel.Id
              else m.procModel.Id) ∧
        (minInt ≤ m.cpuModel.Id → m.cpuModel.Id < maxInt →
          m'.cpuModel.Id = m.cpuModel.Id + (if page = "cpu" ∨ page = "all" then 1 else 0)) ∧
        (minInt ≤ m.gpuModel.Id → m.gpuModel.Id < maxInt →
          m'.gpuModel.Id = m.gpuModel.Id + (if page = "gpu" ∨ page = "all" then 1 else 0)) ∧
        (minInt ≤ m.netModel.Id → m.netModel.Id < maxInt →
          m'.netModel.Id
            = m.netModel.Id + (if page = "network" ∨ page = "all" then 1 else 0)) ∧
        (minInt ≤ m.procModel.Id → m.procModel.Id < maxInt →
          m'.procModel.Id
            = m.procModel.Id + (if page = "processes" ∨ page = "all" then 1 else 0))) ∧
    (m.Page ≠ "menu" →
      ∃ m' c, m.Update env (.key " ") = some (m', c) ∧
        m'.cpuModel.Id = m.cpuModel.Id ∧ m'.gpuModel.Id = m.gpuModel.Id ∧
        m'.netModel.Id = m.netModel.Id ∧ m'.procModel.Id = m.procModel.Id) := by
  constructor
  · intro page hp hs
    have key : ∃ m' c, m.Update env (.key "enter") = some (m', c) ∧
        m'.cpuModel.Id
          = (if page = "cpu" ∨ page = "all" then intInc m.cpuModel.Id else m.cpuModel.Id) ∧
        m'.gpuModel.Id
          = (if page = "gpu" ∨ page = "all" then intInc m.gpuModel.Id else m.gpuModel.Id) ∧
        m'.netModel.Id
          = (if page = "network" ∨ page = "all" then intInc m.netModel.Id else m.netModel.Id) ∧
        m'.procModel.Id
          = (if page = "processes" ∨ page = "all" then intInc m.procModel.Id
              else m.procModel.Id) := by
      simp only [MainModel.Update, hp, MainModel.updateMenu, hs]
      simp only [MainModel.enterPage]
      by_cases h1 : page = "cpu"
      · subst h1; simp
      by_cases h2 : page = "gpu"
      · subst h2; simp
      by_cases h3 : page = "network"
      · subst h3; simp
      by_cases h4 : page = "processes"
      · subst h4; simp
      by_cases h5 : page = "all"
      · subst h5; simp
      simp [h1, h2, h3, h4, h5]
    obtain ⟨m', c, hu, a, b, d, e⟩ := key
    refine ⟨m', c, hu, a, b, d, e, ?_, ?_, ?_, ?_⟩
    · intro r1 r2
      rw [a]
      split_ifs
      · exact intInc_eq _ r1 r2
      · simp
    · intro r1 r2
      rw [b]
      split_ifs
      · exact intInc_eq _ r1 r2
      · simp
    · intro r1 r2
      rw [d]
      split_ifs
      · exact intInc_eq _ r1 r2
      · simp
    · intro r1 r2
      rw [e]
      split_ifs
      · exact intInc_eq _ r1 r2
      · simp
  · intro _
    by_cases hp : isPollerPage m.Page
    · rcases hp with h | h | h | h | h
      · rw [update_return_cpu env m h]; exact ⟨_, _, rfl, rfl, rfl, rfl, rfl⟩
      · rw [update_return_gpu env m h]; exact ⟨_, _, rfl, rfl, rfl, rfl, rfl⟩
      · rw [update_return_network env m h]; exact ⟨_, _, rfl, rfl, rfl, rfl, rfl⟩
      · rw [update_return_processes env m h]; exact ⟨_, _, rfl, rfl, rfl, rfl, rfl⟩
      · rw [update_return_all env m h]; exact ⟨_, _, rfl, rfl, rfl, rfl, rfl⟩
    · rw [update_key_menu env m " " hp]
      simp [MainModel.updateMenu]

/-- Witness of C2: "enter" with the cursor on "cpu" (line 2) of the initial menu, where every
`Id` is 0, and the return key on the cpu page. -/
theorem generation_monotone_witness :
    ((menuAt 2).Page = "menu" ∧ sliceIndex (menuAt 2).choices (menuAt 2).cursor = some "cpu" ∧
      (minInt ≤ (menuAt 2).cpuModel.Id ∧ (menuAt 2).cpuModel.Id < maxInt) ∧
      (minInt ≤ (menuAt 2).gpuModel.Id ∧ (menuAt 2).gpuModel.Id < maxInt) ∧
      (minInt ≤ (menuAt 2).netModel.Id ∧ (menuAt 2).netModel.Id < maxInt) ∧
      (minInt ≤ (menuAt 2).procModel.Id ∧ (menuAt 2).procModel.Id < maxInt) ∧
      ∃ m' c, (menuAt 2).Update testEnv (.key "enter") = some (m', c) ∧
        m'.cpuModel.Id = (menuAt 2).cpuModel.Id + (if "cpu" = "cpu" ∨ "cpu" = "all" then 1 else 0) ∧
        m'.gpuModel.Id = (menuAt 2).gpuModel.Id + (if "cpu" = "gpu" ∨ "cpu" = "all" then 1 else 0) ∧
        m'.netModel.Id
          = (menuAt 2).netModel.Id + (if "cpu" = "network" ∨ "cpu" = "all" then 1 else 0) ∧
        m'.procModel.Id
          = (menuAt 2).procModel.Id + (if "cpu" = "processes" ∨ "cpu" = "all" then 1 else 0)) ∧
    ((entered 2).Page ≠ "menu" ∧
      ∃ m' c, (entered 2).Update testEnv (.key " ") = some (m', c) ∧
        m'.cpuModel.Id = (entered 2).cpuModel.Id ∧ m'.gpuModel.Id = (entered 2).gpuModel.Id ∧
        m'.netModel.Id = (entered 2).netModel.Id ∧
        m'.procModel.Id = (entered 2).procModel.Id) := by
  obtain ⟨m', c, hu, -, -, -, -, a, b, d, e⟩ :=
    (generation_monotone testEnv (menuAt 2)).1 "cpu" (by decide) (by decide)
  exact ⟨⟨by decide, by decide, by decide, by decide, by decide, by decide,
      m', c, hu, a (by decide) (by decide), b (by decide) (by decide),
      d (by decide) (by decide), e (by decide) (by decide)⟩,
    ⟨by decide, (generation_monotone testEnv (entered 2)).2 (by decide)⟩⟩

/-- C3 (accepted tick).  For each poller, a tick message of its kind whose id equals the poller's
`Id` is applied: the snapshot fields of the new state are the payload of the message (for the
network poller: `lastBytesRecv`, `lastBytesSent`, `lastCheck`), `Id` and `Polling` are unchanged,
and a command is returned exactly when `Polling` is true; it is the delayed collection tagged
with the poller's `Id`, with a delay of 1 second (10^9 ns) for CPU, GPU and Network and of
2 seconds for Process. -/
theorem accepted_tick (env : Env) (c : CpuModel) (g : GpuModel) (n : NetworkModel)
    (p : ProcessModel) (mc : CpuStatsMsg) (mg : GpuStatsMsg) (mt : NetTickMsg)
    (mp : ProcessMsg) :
    (mc.id = c.Id →
      ∃ s' cmd, c.Update (.cpuStats mc) = (s', cmd) ∧
        s'.CpuName = mc.cpuName ∧ s'.CpuFreq = mc.cpuFreq ∧ s'.CpuUsage = mc.cpuUsage ∧
        s'.CpuTemp = mc.cpuTemp ∧ s'.CpuFanSpeed = mc.cpuFanSpeed ∧
        s'.RamTotal = mc.ramTotal ∧ s'.RamUsed = mc.ramUsed ∧ s'.RamFree = mc.ramFree ∧
        s'.RamUsedPercent = mc.ramUsedPercent ∧ s'.RamFreePercent = mc.ramFreePercent ∧
        s'.Id = c.Id ∧ s'.Polling = c.Polling ∧
        (cmd.isSome = true ↔ c.Polling = true) ∧
        (∀ k, cmd = some k → k = Cmd.tick 1000000000 (.collectCpuData c.Id))) ∧
    (mg.id = g.Id →
      ∃ s' cmd, g.Update (.gpuStats mg) = (s', cmd) ∧
        s'.GpuName = mg.gpuName ∧ s'.GpuUsage = mg.gpuUsage ∧ s'.GpuTemp = mg.gpuTemp ∧
        s'.GpuFans = mg.gpuFans ∧ s'.GpuMemoryTotal = mg.gpuMemoryTotal ∧
        s'.GpuMemoryUsed = mg.gpuMemoryUsed ∧ s'.GpuMemoryFree = mg.gpuMemoryFree ∧
        s'.GpuMemoryUsedPercent = mg.gpuMemoryUsedPercent ∧
        s'.GpuMemoryFreePercent = mg.gpuMemoryFreePercent ∧
        s'.Id = g.Id ∧ s'.Polling = g.Polling ∧
        (cmd.isSome = true ↔ g.Polling = true) ∧
        (∀ k, cmd = some k → k = Cmd.tick 1000000000 (.collectNvidiaData g.Id))) ∧
    (mt.id = n.Id →
      ∃ s' cmd, n.Update env (.netTick mt) = (s', cmd) ∧
        s'.lastBytesRecv = mt.bytesRecv ∧ s'.lastBytesSent = mt.bytesSent ∧
        s'.lastCheck = mt.timestamp ∧
        s'.Id = n.Id ∧ s'.Polling = n.Polling ∧
        (cmd.isSome = true ↔ n.Polling = true) ∧
        (∀ k, cmd = some k → k = Cmd.tick 1000000000 (.collectNetworkData n.Id n.Interface))) ∧
    (mp.id = p.Id →
      ∃ s' cmd, p.Update (.process mp) = (s', cmd) ∧
        s'.CpuTop = mp.CpuTop ∧ s'.RamTop = mp.RamTop ∧
        s'.Id = p.Id ∧ s'.Polling = p.Polling ∧
        (cmd.isSome = true ↔ p.Polling = true) ∧
        (∀ k, cmd = some k → k = Cmd.tick 2000000000 (.collectProcessData p.Id))) := by
  have hs : Second = 1000000000 := by decide
  have hs2 : 2 * Second = 2000000000 := by decide
  refine ⟨?_, ?_, ?_, ?_⟩ <;> intro h
  · refine ⟨(c.Update (.cpuStats mc)).1, (c.Update (.cpuStats mc)).2, rfl, ?_⟩
    cases hp : c.Polling <;> simp [CpuModel.Update, h, hp, getCpuStats, hs]
  · refine ⟨(g.Update (.gpuStats mg)).1, (g.Update (.gpuStats mg)).2, rfl, ?_⟩
    cases hp : g.Polling <;> simp [GpuModel.Update, h, hp, getGpuStats, hs]
  · refine ⟨(n.Update env (.netTick mt)).1, (n.Update env (.netTick mt)).2, rfl, ?_⟩
    cases hp : n.Polling <;>
      cases hd : env.isPositive (env.subSeconds mt.timestamp n.lastCheck) <;>
      simp [NetworkModel.Update, h, hp, hd, getNetworkTick, hs]
  · refine ⟨(p.Update (.process mp)).1, (p.Update (.process mp)).2, rfl, ?_⟩
    cases hp : p.Polling <;> simp [ProcessModel.Update, h, hp, getProcessStats, hs2]

/-- Witness of C3: results of generation 1 delivered to pollers of generation 1. -/
theorem accepted_tick_witness :
    ((sampleCpuMsg 1).id = (entered 0).cpuModel.Id ∧
      ∃ s' cmd, (entered 0).cpuModel.Update (.cpuStats (sampleCpuMsg 1)) = (s', cmd) ∧
        s'.CpuName = (sampleCpuMsg 1).cpuName ∧ s'.CpuFreq = (sampleCpuMsg 1).cpuFreq ∧
        s'.CpuUsage = (sampleCpuMsg 1).cpuUsage ∧
        s'.CpuTemp = (sampleCpuMsg 1).cpuTemp ∧ s'.CpuFanSpeed = (sampleCpuMsg 1).cpuFanSpeed ∧
        s'.RamTotal = (sampleCpuMsg 1).ramTotal ∧ s'.RamUsed = (sampleCpuMsg 1).ramUsed ∧
        s'.RamFree = (sampleCpuMsg 1).ramFree ∧
        s'.RamUsedPercent = (sampleCpuMsg 1).ramUsedPercent ∧
        s'.RamFreePercent = (sampleCpuMsg 1).ramFreePercent ∧
        s'.Id = (entered 0).cpuModel.Id ∧ s'.Polling = (entered 0).cpuModel.Polling ∧
        (cmd.isSome = true ↔ (entered 0).cpuModel.Polling = true) ∧
        (∀ k, cmd = some k →
          k = Cmd.tick 1000000000 (.collectCpuData (entered 0).cpuModel.Id))) ∧
    ((sampleGpuMsg 1).id = (entered 0).gpuModel.Id ∧
      ∃ s' cmd, (entered 0).gpuModel.Update (.gpuStats (sampleGpuMsg 1)) = (s', cmd) ∧
        s'.GpuName = (sampleGpuMsg 1).gpuName ∧ s'.GpuUsage = (sampleGpuMsg 1).gpuUsage ∧
        s'.GpuTemp = (sampleGpuMsg 1).gpuTemp ∧
        s'.GpuFans = (sampleGpuMsg 1).gpuFans ∧
        s'.GpuMemoryTotal = (sampleGpuMsg 1).gpuMemoryTotal ∧
        s'.GpuMemoryUsed = (sampleGpuMsg 1).gpuMemoryUsed ∧
        s'.GpuMemoryFree = (sampleGpuMsg 1).gpuMemoryFree ∧
        s'.GpuMemoryUsedPercent = (sampleGpuMsg 1).gpuMemoryUsedPercent ∧
        s'.GpuMemoryFreePercent = (sampleGpuMsg 1).gpuMemoryFreePercent ∧
        s'.Id = (entered 0).gpuModel.Id ∧ s'.Polling = (entered 0).gpuModel.Polling ∧
        (cmd.isSome = true ↔ (entered 0).gpuModel.Polling = true) ∧
        (∀ k, cmd = some k →
          k = Cmd.tick 1000000000 (.collectNvidiaData (entered 0).gpuModel.Id))) ∧
    ((sampleNetMsg 1).id = (entered 0).netModel.Id ∧
      ∃ s' cmd, (entered 0).netModel.Update testEnv (.netTick (sampleNetMsg 1)) = (s', cmd) ∧
        s'.lastBytesRecv = (sampleNetMsg 1).bytesRecv ∧
        s'.lastBytesSent = (sampleNetMsg 1).bytesSent ∧
        s'.lastCheck = (sampleNetMsg 1).timestamp ∧
        s'.Id = (entered 0).netModel.Id ∧ s'.Polling = (entered 0).netModel.Polling ∧
        (cmd.isSome = true ↔ (entered 0).netModel.Polling = true) ∧
        (∀ k, cmd = some k →
          k = Cmd.tick 1000000000
            (.collectNetworkData (entered 0).netModel.Id (entered 0).netModel.Interface))) ∧
    ((sampleProcMsg 1).id = (entered 0).procModel.Id ∧
      ∃ s' cmd, (entered 0).procModel.Update (.process (sampleProcMsg 1)) = (s', cmd) ∧
        s'.CpuTop = (sampleProcMsg 1).CpuTop ∧ s'.RamTop = (sampleProcMsg 1).RamTop ∧
        s'.Id = (entered 0).procModel.Id ∧ s'.Polling = (entered 0).procModel.Polling ∧
        (cmd.isSome = true ↔ (entered 0).procModel.Polling = true) ∧
        (∀ k, cmd = some k →
          k = Cmd.tick 2000000000 (.collectProcessData (entered 0).procModel.Id))) :=
  have h := accepted_tick testEnv (entered 0).cpuModel (entered 0).gpuModel
    (entered 0).netModel (entered 0).procModel (sampleCpuMsg 1) (sampleGpuMsg 1)
    (sampleNetMsg 1) (sampleProcMsg 1)
  ⟨⟨by decide, h.1 (by decide)⟩, ⟨by decide, h.2.1 (by decide)⟩,
   ⟨by decide, h.2.2.1 (by decide)⟩, ⟨by decide, h.2.2.2 (by decide)⟩⟩

/-- Counterexample to C4.  The cpu page is entered from the initial menu (generation 1), the
return key is processed, then a `CpuStatsMsg` of generation 1, the poller's current `Id`, with
usage 42 is delivered: the coordinator is now on the menu page, which routes no telemetry, so the
stored snapshot keeps its old usage and is not updated to the payload. -/
theorem disarmed_snapshot_not_updated :
    ∃ stopped,
      (entered 2).Update testEnv (.key " ") = some (stopped, none) ∧
      (sampleCpuMsg 1).id = stopped.cpuModel.Id ∧
      stopped.Update testEnv (.cpuStats (sampleCpuMsg 1)) = some (stopped, none) ∧
      stopped.cpuModel.CpuUsage = ⟨0⟩ ∧ (sampleCpuMsg 1).cpuUsage = ⟨42⟩ ∧
      stopped.cpuModel.CpuUsage ≠ (sampleCpuMsg 1).cpuUsage :=
  ⟨_, rfl, by decide, rfl, rfl, rfl, by decide⟩

/-- C4 as amended (disarm, end to end).  On each of the five poller pages the return key is
processed with no command and leads to a state in which a telemetry message, in particular a
tick of that page's subsystem tagged with its current `Id`, leaves the whole coordinator state
unchanged, the stored snapshot included, and returns no command. -/
theorem disarm_end_to_end (env : Env) (m : MainModel) (msg : Msg)
    (hp : isPollerPage m.Page) (ht : msg.isTelemetry = true) :
    ∃ stopped,
      m.Update env (.key " ") = some (stopped, none) ∧
      stopped.Page = "menu" ∧
      stopped.Update env msg = some (stopped, none) := by
  have hm : ∀ s : MainModel, s.Page = "menu" → s.Update env msg = some (s, none) := by
    intro s hs
    apply update_telemetry_menu env s msg _ ht
    rw [hs]; decide
  rcases hp with h | h | h | h | h
  · exact ⟨_, update_return_cpu env m h, rfl, hm _ rfl⟩
  · exact ⟨_, update_return_gpu env m h, rfl, hm _ rfl⟩
  · exact ⟨_, update_return_network env m h, rfl, hm _ rfl⟩
  · exact ⟨_, update_return_processes env m h, rfl, hm _ rfl⟩
  · exact ⟨_, update_return_all env m h, rfl, hm _ rfl⟩

/-- Witness of C4 as amended: the cpu page and a cpu result of the current generation. -/
theorem disarm_end_to_end_witness :
    isPollerPage (entered 2).Page ∧ (Msg.cpuStats (sampleCpuMsg 1)).isTelemetry = true ∧
    ∃ stopped,
      (entered 2).Update testEnv (.key " ") = some (stopped, none) ∧
      stopped.Page = "menu" ∧
      stopped.Update testEnv (.cpuStats (sampleCpuMsg 1)) = some (stopped, none) :=
  ⟨by decide, by decide,
    disarm_end_to_end testEnv (entered 2) (.cpuStats (sampleCpuMsg 1)) (by decide) (by decide)⟩

/-- Counterexample to C5.  From the initial menu with the cursor on "cpu", the confirm key
returns the command `tea.Tick(time.Second, ...)` of `getCpuStats(1)`: a collection delayed by one
second (10^9 ns), not an immediate one. -/
theorem start_command_is_delayed :
    ∃ m', (menuAt 2).Update testEnv (.key "enter")
        = some (m', some (Cmd.tick 1000000000 (.collectCpuData 1))) ∧
      m'.cpuModel.Id = 1 ∧
      (Cmd.tick 1000000000 (.collectCpuData 1)).isImmediate = false ∧
      Cmd.tick 1000000000 (.collectCpuData 1) ≠ Cmd.run (.collectCpuData 1) :=
  ⟨_, rfl, rfl, rfl, by simp⟩

/-- C5 as amended (start command).  Entering a poller's page from the menu stores that poller
with `Id` incremented by `Id++` and `Polling = true`, and returns that poller's first command
tagged with the incremented `Id`, the `Id` of the stored poller: for CPU and GPU a collection
delayed by 1 second, for Process a collection delayed by 2 seconds, and for Network a batch of a
collection delayed by 1 second and a speedtest that starts at once. -/
theorem start_command (env : Env) (m : MainModel) (hp : m.Page = "menu") :
    (sliceIndex m.choices m.cursor = some "cpu" →
      ∃ m', m.Update env (.key "enter")
          = some (m', some (Cmd.tick 1000000000 (.collectCpuData m'.cpuModel.Id))) ∧
        m'.Page = "cpu" ∧ m'.cpuModel.Id = intInc m.cpuModel.Id ∧
        m'.cpuModel.Polling = true) ∧
    (sliceIndex m.choices m.cursor = some "gpu" →
      ∃ m', m.Update env (.key "enter")
          = some (m', some (Cmd.tick 1000000000 (.collectNvidiaData m'.gpuModel.Id))) ∧
        m'.Page = "gpu" ∧ m'.gpuModel.Id = intInc m.gpuModel.Id ∧
        m'.gpuModel.Polling = true) ∧
    (sliceIndex m.choices m.cursor = some "network" →
      ∃ m', m.Update env (.key "enter")
          = some (m', some (Cmd.batch [
              Cmd.tick 1000000000 (.collectNetworkData m'.netModel.Id m.netModel.Interface),
              Cmd.run (.runSpeedtest m'.netModel.Id)])) ∧
        m'.Page = "network" ∧ m'.netModel.Id = intInc m.netModel.Id ∧
        m'.netModel.Polling = true) ∧
    (sliceIndex m.choices m.cursor = some "processes" →
      ∃ m', m.Update env (.key "enter")
          = some (m', some (Cmd.tick 2000000000 (.collectProcessData m'.procModel.Id))) ∧
        m'.Page = "processes" ∧ m'.procModel.Id = intInc m.procModel.Id ∧
        m'.procModel.Polling = true) := by
  have hs : Second = 1000000000 := by decide
  have hs2 : 2 * Second = 2000000000 := by decide
  refine ⟨?_, ?_, ?_, ?_⟩ <;> intro h
  · refine ⟨{ m with
        Page := "cpu",
        cpuModel := { m.cpuModel with Polling := true, Id := intInc m.cpuModel.Id } },
      ?_, rfl, rfl, rfl⟩
    simp [MainModel.Update, hp, MainModel.updateMenu, h, MainModel.enterPage, CpuModel.Init,
      getCpuStats, hs]
  · refine ⟨{ m with
        Page := "gpu",
        gpuModel := { m.gpuModel with Polling := true, Id := intInc m.gpuModel.Id } },
      ?_, rfl, rfl, rfl⟩
    simp [MainModel.Update, hp, MainModel.updateMenu, h, MainModel.enterPage, GpuModel.Init,
      getGpuStats, hs]
  · refine ⟨{ m with
        Page := "network",
        netModel := { m.netModel with Polling := true, Id := intInc m.netModel.Id } },
      ?_, rfl, rfl, rfl⟩
    simp [MainModel.Update, hp, MainModel.updateMenu, h, MainModel.enterPage, NetworkModel.Init,
      teaBatch, getNetworkTick, runSpeedtest, hs]
  · refine ⟨{ m with
        Page := "processes",
        procModel := { m.procModel with Polling := true, Id := intInc m.procModel.Id } },
      ?_, rfl, rfl, rfl⟩
    simp [MainModel.Update, hp, MainModel.updateMenu, h, MainModel.enterPage,
      ProcessModel.Init, getProcessStats, hs2]

/-- Witness of C5 as amended: the initial menu with the cursor on "cpu" (line 2), "gpu" (line 3),
"network" (line 1) and "processes" (line 4). -/
theorem start_command_witness :
    ((menuAt 2).Page = "menu" ∧ sliceIndex (menuAt 2).choices (menuAt 2).cursor = some "cpu" ∧
      ∃ m', (menuAt 2).Update testEnv (.key "enter")
          = some (m', some (Cmd.tick 1000000000 (.collectCpuData m'.cpuModel.Id))) ∧
        m'.Page = "cpu" ∧ m'.cpuModel.Id = intInc (menuAt 2).cpuModel.Id ∧
        m'.cpuModel.Polling = true) ∧
    ((menuAt 3).Page = "menu" ∧ sliceIndex (menuAt 3).choices (menuAt 3).cursor = some "gpu" ∧
      ∃ m', (menuAt 3).Update testEnv (.key "enter")
          = some (m', some (Cmd.tick 1000000000 (.collectNvidiaData m'.gpuModel.Id))) ∧
        m'.Page = "gpu" ∧ m'.gpuModel.Id = intInc (menuAt 3).gpuModel.Id ∧
        m'.gpuModel.Polling = true) ∧
    ((menuAt 1).Page = "menu" ∧
      sliceIndex (menuAt 1).choices (menuAt 1).cursor = some "network" ∧
      ∃ m', (menuAt 1).Update testEnv (.key "enter")
          = some (m', some (Cmd.batch [
              Cmd.tick 1000000000
                (.collectNetworkData m'.netModel.Id (menuAt 1).netModel.Interface),
              Cmd.run (.runSpeedtest m'.netModel.Id)])) ∧
        m'.Page = "network" ∧ m'.netModel.Id = intInc (menuAt 1).netModel.Id ∧
        m'.netModel.Polling = true) ∧
    ((menuAt 4).Page = "menu" ∧
      sliceIndex (menuAt 4).choices (menuAt 4).cursor = some "processes" ∧
      ∃ m', (menuAt 4).Update testEnv (.key "enter")
          = some (m', some (Cmd.tick 2000000000 (.collectProcessData m'.procModel.Id))) ∧
        m'.Page = "processes" ∧ m'.procModel.Id = intInc (menuAt 4).procModel.Id ∧
        m'.procModel.Polling = true) :=
  ⟨⟨by decide, by decide, (start_command testEnv (menuAt 2) (by decide)).1 (by decide)⟩,
   ⟨by decide, by decide, (start_command testEnv (menuAt 3) (by decide)).2.1 (by decide)⟩,
   ⟨by decide, by decide, (start_command testEnv (menuAt 1) (by decide)).2.2.1 (by decide)⟩,
   ⟨by decide, by decide, (start_command testEnv (menuAt 4) (by decide)).2.2.2 (by decide)⟩⟩

/-- Counterexample to C6.  The result of the initial cpu fetch (generation 0, the cpu poller's
current `Id`) is delivered in the initial state, on the menu page: the coordinator state stays as
it was and the message is not routed, although `CpuModel.Update` on that message yields a new cpu
state.  The same happens when it is delivered on the gpu page. -/
theorem telemetry_dropped_off_page :
    ((InitialModel sampleInfo).Page = "menu" ∧
      (sampleCpuMsg 0).id = (InitialModel sampleInfo).cpuModel.Id ∧
      (InitialModel sampleInfo).Update testEnv (.cpuStats (sampleCpuMsg 0))
        = some (InitialModel sampleInfo, none) ∧
      ((InitialModel sampleInfo).cpuModel.Update (.cpuStats (sampleCpuMsg 0))).1
        ≠ (InitialModel sampleInfo).cpuModel) ∧
    ((entered 3).Page = "gpu" ∧
      (sampleCpuMsg 0).id = (entered 3).cpuModel.Id ∧
      (entered 3).Update testEnv (.cpuStats (sampleCpuMsg 0)) = some (entered 3, none) ∧
      ((entered 3).cpuModel.Update (.cpuStats (sampleCpuMsg 0))).1 ≠ (entered 3).cpuModel) :=
  ⟨⟨rfl, by decide, rfl, by decide⟩, ⟨rfl, by decide, rfl, by decide⟩⟩

/-- C6 as amended (routing by payload kind and by page).  For a telemetry message whose owning
poller has page `p`: when the active page is `p` or "all", `MainModel.Update` replaces the state
of the owning poller by the result of that poller's `Update` on the message, changes nothing
else, and issues exactly the commands that `Update` returned (on page `p` it returns that very
command); on every other page the message changes nothing and no command is returned. -/
theorem routing_by_kind (env : Env) (m : MainModel) (msg : Msg) (p : String)
    (ho : msg.owner = some p) :
    ((m.Page = p ∨ m.Page = "all") →
      ∃ c, m.Update env msg = some ((m.specRoute env msg).1, c) ∧
        cmdLeaves c = cmdLeaves (m.specRoute env msg).2 ∧
        (m.Page = p → c = (m.specRoute env msg).2)) ∧
    (¬ (m.Page = p ∨ m.Page = "all") → m.Update env msg = some (m, none)) := by
  have ht : msg.isTelemetry = true := by
    cases msg <;> simp [Msg.owner] at ho <;> rfl
  constructor
  · rintro (h | h)
    · subst h
      exact ⟨_, update_telemetry_own env m msg ho, rfl, fun _ => rfl⟩
    · exact ⟨_, update_telemetry_all env m msg h ht, rfl, fun _ => rfl⟩
  · intro h
    rw [not_or] at h
    by_cases hp : isPollerPage m.Page
    · refine update_telemetry_foreign env m msg hp h.2 ht ?_
      rw [ho]
      intro e
      exact h.1 (Option.some.inj e).symm
    · exact update_telemetry_menu env m msg hp ht

/-- Witness of C6 as amended: a cpu result of generation 1 on the "all" page, where the cpu poller
is at generation 1, and the same message on the gpu page. -/
theorem routing_by_kind_witness :
    (Msg.cpuStats (sampleCpuMsg 1)).owner = some "cpu" ∧
    (((entered 0).Page = "cpu" ∨ (entered 0).Page = "all") ∧
      ∃ c, (entered 0).Update testEnv (.cpuStats (sampleCpuMsg 1))
          = some (((entered 0).specRoute testEnv (.cpuStats (sampleCpuMsg 1))).1, c) ∧
        cmdLeaves c = cmdLeaves ((entered 0).specRoute testEnv (.cpuStats (sampleCpuMsg 1))).2 ∧
        ((entered 0).Page = "cpu" →
          c = ((entered 0).specRoute testEnv (.cpuStats (sampleCpuMsg 1))).2)) ∧
    (¬ ((entered 3).Page = "cpu" ∨ (entered 3).Page = "all") ∧
      (entered 3).Update testEnv (.cpuStats (sampleCpuMsg 1)) = some (entered 3, none)) :=
  ⟨by decide,
    ⟨by decide,
      (routing_by_kind testEnv (entered 0) (.cpuStats (sampleCpuMsg 1)) "cpu" (by decide)).1
        (by decide)⟩,
    ⟨by decide,
      (routing_by_kind testEnv (entered 3) (.cpuStats (sampleCpuMsg 1)) "cpu" (by decide)).2
        (by decide)⟩⟩

/-- C7 (no cross-subsystem mutation).  On the "all" page a telemetry message changes at most the
state of the poller that owns its kind: the three other poller states, the page, the cursor and
the selection are unchanged, and the commands of the returned batch are exactly those returned
by the owning poller's `Update`. -/
theorem all_page_frame (env : Env) (m : MainModel) (msg : Msg) (hp : m.Page = "all")
    (ht : msg.isTelemetry = true) :
    ∃ m' c, m.Update env msg = some (m', c) ∧
      (msg.owner ≠ some "cpu" → m'.cpuModel = m.cpuModel) ∧
      (msg.owner ≠ some "gpu" → m'.gpuModel = m.gpuModel) ∧
      (msg.owner ≠ some "network" → m'.netModel = m.netModel) ∧
      (msg.owner ≠ some "processes" → m'.procModel = m.procModel) ∧
      m'.Page = m.Page ∧ m'.cursor = m.cursor ∧ m'.selected = m.selected ∧
      (msg.owner = some "cpu" → cmdLeaves c = cmdLeaves (m.cpuModel.Update msg).2) ∧
      (msg.owner = some "gpu" → cmdLeaves c = cmdLeaves (m.gpuModel.Update msg).2) ∧
      (msg.owner = some "network" → cmdLeaves c = cmdLeaves (m.netModel.Update env msg).2) ∧
      (msg.owner = some "processes" → cmdLeaves c = cmdLeaves (m.procModel.Update msg).2) := by
  refine ⟨_, _, update_telemetry_all env m msg hp ht, ?_⟩
  cases msg <;> simp [Msg.isTelemetry] at ht <;> simp [MainModel.specRoute, Msg.owner]

/-- Witness of C7: a network tick of the current generation on the "all" page. -/
theorem all_page_frame_witness :
    (entered 0).Page = "all" ∧ (Msg.netTick (sampleNetMsg 1)).isTelemetry = true ∧
    ∃ m' c, (entered 0).Update testEnv (.netTick (sampleNetMsg 1)) = some (m', c) ∧
      ((Msg.netTick (sampleNetMsg 1)).owner ≠ some "cpu" →
        m'.cpuModel = (entered 0).cpuModel) ∧
      ((Msg.netTick (sampleNetMsg 1)).owner ≠ some "gpu" →
        m'.gpuModel = (entered 0).gpuModel) ∧
      ((Msg.netTick (sampleNetMsg 1)).owner ≠ some "network" →
        m'.netModel = (entered 0).netModel) ∧
      ((Msg.netTick (sampleNetMsg 1)).owner ≠ some "processes" →
        m'.procModel = (entered 0).procModel) ∧
      m'.Page = (entered 0).Page ∧ m'.cursor = (entered 0).cursor ∧
      m'.selected = (entered 0).selected ∧
      ((Msg.netTick (sampleNetMsg 1)).owner = some "cpu" →
        cmdLeaves c = cmdLeaves ((entered 0).cpuModel.Update (.netTick (sampleNetMsg 1))).2) ∧
      ((Msg.netTick (sampleNetMsg 1)).owner = some "gpu" →
        cmdLeaves c = cmdLeaves ((entered 0).gpuModel.Update (.netTick (sampleNetMsg 1))).2) ∧
      ((Msg.netTick (sampleNetMsg 1)).owner = some "network" →
        cmdLeaves c
          = cmdLeaves ((entered 0).netModel.Update testEnv (.netTick (sampleNetMsg 1))).2) ∧
      ((Msg.netTick (sampleNetMsg 1)).owner = some "processes" →
        cmdLeaves c
          = cmdLeaves ((entered 0).procModel.Update (.netTick (sampleNetMsg 1))).2) :=
  ⟨by decide, by decide,
    all_page_frame testEnv (entered 0) (.netTick (sampleNetMsg 1)) (by decide) (by decide)⟩

/-- C8 (return to menu).  On each of the pages cpu, gpu, network, processes and all, the return
key sets `Page` to "menu", sets `Polling` to false on every poller active for the page (its own
poller, or all four for "all"), leaves every other field of every poller unchanged, and returns
no command. -/
theorem return_to_menu (env : Env) (m : MainModel) (hp : isPollerPage m.Page) :
    ∃ m', m.Update env (.key " ") = some (m', none) ∧
      m'.Page = "menu" ∧
      m'.cpuModel = { m.cpuModel with
        Polling := if m.Page = "cpu" ∨ m.Page = "all" then false else m.cpuModel.Polling } ∧
      m'.gpuModel = { m.gpuModel with
        Polling := if m.Page = "gpu" ∨ m.Page = "all" then false else m.gpuModel.Polling } ∧
      m'.netModel = { m.netModel with
        Polling := if m.Page = "network" ∨ m.Page = "all" then false else m.netModel.Polling } ∧
      m'.procModel = { m.procModel with
        Polling :=
          if m.Page = "processes" ∨ m.Page = "all" then false else m.procModel.Polling } := by
  rcases hp with h | h | h | h | h
  · exact ⟨_, update_return_cpu env m h, by simp [h]⟩
  · exact ⟨_, update_return_gpu env m h, by simp [h]⟩
  · exact ⟨_, update_return_network env m h, by simp [h]⟩
  · exact ⟨_, update_return_processes env m h, by simp [h]⟩
  · exact ⟨_, update_return_all env m h, by simp [h]⟩

/-- Witness of C8: the return key on the network page. -/
theorem return_to_menu_witness :
    isPollerPage (entered 1).Page ∧
    ∃ m', (entered 1).Update testEnv (.key " ") = some (m', none) ∧
      m'.Page = "menu" ∧
      m'.cpuModel = { (entered 1).cpuModel with
        Polling := if (entered 1).Page = "cpu" ∨ (entered 1).Page = "all" then false
          else (entered 1).cpuModel.Polling } ∧
      m'.gpuModel = { (entered 1).gpuModel with
        Polling := if (entered 1).Page = "gpu" ∨ (entered 1).Page = "all" then false
          else (entered 1).gpuModel.Polling } ∧
      m'.netModel = { (entered 1).netModel with
        Polling :=
          if (entered 1).Page = "network" ∨ (entered 1).Page = "all" then false
          else (entered 1).netModel.Polling } ∧
      m'.procModel = { (entered 1).procModel with
        Polling :=
          if (entered 1).Page = "processes" ∨ (entered 1).Page = "all" then false
          else (entered 1).procModel.Polling } :=
  ⟨by decide, return_to_menu testEnv (entered 1) (by decide)⟩

/-- C9 (all-page fan-out).  On the menu page with the cursor on "all", the confirm key sets `Page`
to "all", sets `Polling` to true and performs `Id++` on all four pollers, and returns one batch
with exactly 4 members, one per poller, each the `Init` command of that poller and tagged with
that poller's new `Id`: the delayed collections of CPU, GPU and Process, and for Network the
command `NetworkModel.Init` returns, itself the batch of a delayed collection and a speedtest,
both tagged with the new `Id` of the network poller. -/
theorem all_page_fan_out (env : Env) (m : MainModel) (hp : m.Page = "menu")
    (hc : sliceIndex m.choices m.cursor = some "all") :
    ∃ m' cs, m.Update env (.key "enter") = some (m', some (Cmd.batch cs)) ∧
      cs.length = 4 ∧
      cs.map some
        = [m'.cpuModel.Init, m'.gpuModel.Init, m'.netModel.Init, m'.procModel.Init] ∧
      cs = [
        Cmd.tick 1000000000 (.collectCpuData m'.cpuModel.Id),
        Cmd.tick 1000000000 (.collectNvidiaData m'.gpuModel.Id),
        Cmd.batch [
          Cmd.tick 1000000000 (.collectNetworkData m'.netModel.Id m'.netModel.Interface),
          Cmd.run (.runSpeedtest m'.netModel.Id)],
        Cmd.tick 2000000000 (.collectProcessData m'.procModel.Id)] ∧
      m'.Page = "all" ∧
      m'.cpuModel = { m.cpuModel with Polling := true, Id := intInc m.cpuModel.Id } ∧
      m'.gpuModel = { m.gpuModel with Polling := true, Id := intInc m.gpuModel.Id } ∧
      m'.netModel = { m.netModel with Polling := true, Id := intInc m.netModel.Id } ∧
      m'.procModel = { m.procModel with Polling := true, Id := intInc m.procModel.Id } := by
  have hs : Second = 1000000000 := by decide
  have hs2 : 2 * Second = 2000000000 := by decide
  refine ⟨{ m with
      Page := "all",
      cpuModel := { m.cpuModel with Polling := true, Id := intInc m.cpuModel.Id },
      gpuModel := { m.gpuModel with Polling := true, Id := intInc m.gpuModel.Id },
      netModel := { m.netModel with Polling := true, Id := intInc m.netModel.Id },
      procModel := { m.procModel with Polling := true, Id := intInc m.procModel.Id } },
    [Cmd.tick 1000000000 (.collectCpuData (intInc m.cpuModel.Id)),
      Cmd.tick 1000000000 (.collectNvidiaData (intInc m.gpuModel.Id)),
      Cmd.batch [
        Cmd.tick 1000000000 (.collectNetworkData (intInc m.netModel.Id) m.netModel.Interface),
        Cmd.run (.runSpeedtest (intInc m.netModel.Id))],
      Cmd.tick 2000000000 (.collectProcessData (intInc m.procModel.Id))],
    ?_, rfl, ?_, rfl, rfl, rfl, rfl, rfl, rfl⟩
  · simp [MainModel.Update, hp, MainModel.updateMenu, hc, MainModel.enterPage, teaBatch,
      CpuModel.Init, GpuModel.Init, NetworkModel.Init, ProcessModel.Init, getCpuStats,
      getGpuStats, getNetworkTick, runSpeedtest, getProcessStats, hs, hs2]
  · simp [teaBatch, CpuModel.Init, GpuModel.Init, NetworkModel.Init, ProcessModel.Init,
      getCpuStats, getGpuStats, getNetworkTick, runSpeedtest, getProcessStats, hs, hs2]

/-- Witness of C9: the initial menu, whose cursor is on "all". -/
theorem all_page_fan_out_witness :
    (menuAt 0).Page = "menu" ∧ sliceIndex (menuAt 0).choices (menuAt 0).cursor = some "all" ∧
    ∃ m' cs, (menuAt 0).Update testEnv (.key "enter") = some (m', some (Cmd.batch cs)) ∧
      cs.length = 4 ∧
      cs.map some
        = [m'.cpuModel.Init, m'.gpuModel.Init, m'.netModel.Init, m'.procModel.Init] ∧
      cs = [
        Cmd.tick 1000000000 (.collectCpuData m'.cpuModel.Id),
        Cmd.tick 1000000000 (.collectNvidiaData m'.gpuModel.Id),
        Cmd.batch [
          Cmd.tick 1000000000 (.collectNetworkData m'.netModel.Id m'.netModel.Interface),
          Cmd.run (.runSpeedtest m'.netModel.Id)],
        Cmd.tick 2000000000 (.collectProcessData m'.procModel.Id)] ∧
      m'.Page = "all" ∧
      m'.cpuModel = { (menuAt 0).cpuModel with
        Polling := true, Id := intInc (menuAt 0).cpuModel.Id } ∧
      m'.gpuModel = { (menuAt 0).gpuModel with
        Polling := true, Id := intInc (menuAt 0).gpuModel.Id } ∧
      m'.netModel = { (menuAt 0).netModel with
        Polling := true, Id := intInc (menuAt 0).netModel.Id } ∧
      m'.procModel = { (menuAt 0).procModel with
        Polling := true, Id := intInc (menuAt 0).procModel.Id } :=
  ⟨by decide, by decide, all_page_fan_out testEnv (menuAt 0) (by decide) (by decide)⟩

/-- C10 (heartbeat).  On every page, a `HeartbeatMsg` performs `spinnerIndex++`, which adds
exactly 1 to `spinnerIndex` whenever it is an `int` below the largest one (the largest `int` is
reached after 2^63 - 1 heartbeats, and there `++` wraps around as `intInc` says), sets
`currentTime` to the time of the message, returns exactly one command, the heartbeat tick with a
delay of 100 ms (10^8 ns), and leaves the page, the cursor, the selection and the four poller
states unchanged. -/
theorem heartbeat_step (env : Env) (m : MainModel) (t : Time) :
    ∃ m', m.Update env (.heartbeat t) = some (m', some (Cmd.tick 100000000 .heartbeat)) ∧
      cmdLeaves (some (Cmd.tick 100000000 .heartbeat)) = [Cmd.tick 100000000 .heartbeat] ∧
      m'.spinnerIndex = intInc m.spinnerIndex ∧
      (minInt ≤ m.spinnerIndex → m.spinnerIndex < maxInt →
        m'.spinnerIndex = m.spinnerIndex + 1) ∧
      m'.currentTime = t ∧
      m'.Page = m.Page ∧ m'.cursor = m.cursor ∧ m'.selected = m.selected ∧
      m'.cpuModel = m.cpuModel ∧ m'.gpuModel = m.gpuModel ∧ m'.netModel = m.netModel ∧
      m'.procModel = m.procModel := by
  have hd : Millisecond * 100 = 100000000 := by decide
  refine ⟨{ m with spinnerIndex := intInc m.spinnerIndex, currentTime := t }, ?_, ?_, rfl,
    fun r1 r2 => intInc_eq _ r1 r2, rfl, rfl, rfl, rfl, rfl, rfl, rfl, rfl⟩
  · simp [MainModel.Update, doHeartbeat, hd]
  · simp [cmdLeaves, Cmd.leaves]

/-- Witness of C10: a heartbeat on the cpu page reached from the initial menu, where
`spinnerIndex` is 0. -/
theorem heartbeat_step_witness :
    (minInt ≤ (entered 2).spinnerIndex ∧ (entered 2).spinnerIndex < maxInt) ∧
    ∃ m', (entered 2).Update testEnv (.heartbeat ⟨7⟩)
        = some (m', some (Cmd.tick 100000000 .heartbeat)) ∧
      m'.spinnerIndex = (entered 2).spinnerIndex + 1 ∧ m'.currentTime = ⟨7⟩ ∧
      m'.Page = (entered 2).Page ∧ m'.cursor = (entered 2).cursor ∧
      m'.selected = (entered 2).selected ∧
      m'.cpuModel = (entered 2).cpuModel ∧ m'.gpuModel = (entered 2).gpuModel ∧
      m'.netModel = (entered 2).netModel ∧ m'.procModel = (entered 2).procModel := by
  obtain ⟨m', hu, -, -, a, b⟩ := heartbeat_step testEnv (entered 2) ⟨7⟩
  exact ⟨⟨by decide, by decide⟩, m', hu, a (by decide) (by decide), b⟩

/-- C11 (speedtest trigger).  For a `SpeedtestTriggerMsg`, `NetworkModel.Update` starts a
measurement, that is sets `IsSpeedtesting` to true (all other fields unchanged) and returns the
speedtest command tagged with the poller's `Id`, exactly when the trigger's id equals `Id` and
`Polling` is true; in every other case it returns the state unchanged and no command. -/
theorem speedtest_trigger (env : Env) (s : NetworkModel) (t : Int) :
    ((t = s.Id ∧ s.Polling = true) →
      s.Update env (.speedtestTrigger t)
        = ({ s with IsSpeedtesting := true }, some (Cmd.run (.runSpeedtest s.Id)))) ∧
    (¬ (t = s.Id ∧ s.Polling = true) → s.Update env (.speedtestTrigger t) = (s, none)) ∧
    (((s.Update env (.speedtestTrigger t)).1.IsSpeedtesting = true ∧
        (s.Update env (.speedtestTrigger t)).2 = some (Cmd.run (.runSpeedtest s.Id)))
      ↔ (t = s.Id ∧ s.Polling = true)) := by
  have h1 : (t = s.Id ∧ s.Polling = true) →
      s.Update env (.speedtestTrigger t)
        = ({ s with IsSpeedtesting := true }, some (Cmd.run (.runSpeedtest s.Id))) := by
    rintro ⟨ht, hp⟩
    simp [NetworkModel.Update, ht, hp, runSpeedtest]
  have h2 : ¬ (t = s.Id ∧ s.Polling = true) → s.Update env (.speedtestTrigger t) = (s, none) := by
    intro h
    by_cases ht : t = s.Id
    · have hp : s.Polling = false := by
        cases hq : s.Polling
        · rfl
        · exact absurd ⟨ht, hq⟩ h
      simp [NetworkModel.Update, ht, hp]
    · simp [NetworkModel.Update, ht]
  refine ⟨h1, h2, ?_⟩
  constructor
  · intro hs
    by_contra hn
    rw [h2 hn] at hs
    simp at hs
  · intro h
    rw [h1 h]
    exact ⟨rfl, rfl⟩

/-- Witness of C11: a trigger of generation 1 on the polling network poller of generation 1, and
a trigger of generation 0 on the same poller. -/
theorem speedtest_trigger_witness :
    (((1 : Int) = (entered 1).netModel.Id ∧ (entered 1).netModel.Polling = true) ∧
      (entered 1).netModel.Update testEnv (.speedtestTrigger 1)
        = ({ (entered 1).netModel with IsSpeedtesting := true },
            some (Cmd.run (.runSpeedtest (entered 1).netModel.Id)))) ∧
    (¬ ((0 : Int) = (entered 1).netModel.Id ∧ (entered 1).netModel.Polling = true) ∧
      (entered 1).netModel.Update testEnv (.speedtestTrigger 0) = ((entered 1).netModel, none)) :=
  ⟨⟨by decide, (speedtest_trigger testEnv (entered 1).netModel 1).1 (by decide)⟩,
   ⟨by decide, (speedtest_trigger testEnv (entered 1).netModel 0).2.1 (by decide)⟩⟩

/-- C12 (speedtest result).  For a `SpeedtestMsg` whose `Id` equals the poller's `Id`,
`NetworkModel.Update` stores `SpeedtestDownload = r.Download`, sets `IsSpeedtesting` to false,
leaves `Id`, `Polling`, the byte counters and the rates unchanged, and returns exactly one
command: the tick of 5 minutes (3 * 10^11 ns) that yields `SpeedtestTriggerMsg(s.Id)`. -/
theorem speedtest_result (env : Env) (s : NetworkModel) (r : SpeedtestMsg) (h : r.Id = s.Id) :
    ∃ s', s.Update env (.speedtest r)
        = (s', some (Cmd.tick 300000000000 (.speedtestTrigger s.Id))) ∧
      cmdLeaves (some (Cmd.tick 300000000000 (.speedtestTrigger s.Id)))
        = [Cmd.tick 300000000000 (.speedtestTrigger s.Id)] ∧
      s'.SpeedtestDownload = r.Download ∧ s'.IsSpeedtesting = false ∧
      s'.Id = s.Id ∧ s'.Polling = s.Polling ∧
      s'.lastBytesRecv = s.lastBytesRecv ∧ s'.lastBytesSent = s.lastBytesSent ∧
      s'.DownloadRate = s.DownloadRate ∧ s'.UploadRate = s.UploadRate := by
  have hm : 5 * Minute = 300000000000 := by decide
  refine ⟨(s.Update env (.speedtest r)).1, ?_, ?_⟩
  · simp [NetworkModel.Update, h, hm]
  · simp [NetworkModel.Update, h, cmdLeaves, Cmd.leaves]

/-- Witness of C12: a speedtest result of generation 1 on the network poller of generation 1. -/
theorem speedtest_result_witness :
    (sampleSpeedMsg 1).Id = (entered 1).netModel.Id ∧
    ∃ s', (entered 1).netModel.Update testEnv (.speedtest (sampleSpeedMsg 1))
        = (s', some (Cmd.tick 300000000000 (.speedtestTrigger (entered 1).netModel.Id))) ∧
      cmdLeaves (some (Cmd.tick 300000000000 (.speedtestTrigger (entered 1).netModel.Id)))
        = [Cmd.tick 300000000000 (.speedtestTrigger (entered 1).netModel.Id)] ∧
      s'.SpeedtestDownload = (sampleSpeedMsg 1).Download ∧ s'.IsSpeedtesting = false ∧
      s'.Id = (entered 1).netModel.Id ∧ s'.Polling = (entered 1).netModel.Polling ∧
      s'.lastBytesRecv = (entered 1).netModel.lastBytesRecv ∧
      s'.lastBytesSent = (entered 1).netModel.lastBytesSent ∧
      s'.DownloadRate = (entered 1).netModel.DownloadRate ∧
      s'.UploadRate = (entered 1).netModel.UploadRate :=
  ⟨by decide, speedtest_result testEnv (entered 1).netModel (sampleSpeedMsg 1) (by decide)⟩

/-- Counterexample to C13.  The program starts, `MainModel.Init` issues the initial fetches, and
the confirm key is pressed on the initial menu, whose cursor is on "all", before any result has
arrived: each poller's `Init` issues its commands while the initial fetch of that subsystem is
still outstanding, and `NetworkModel.Init` issues two.  The cpu, gpu and process subsystems have
two outstanding commands each and the network subsystem has three. -/
theorem several_outstanding_after_enter_all :
    Program.Reachable sampleInfo afterEnterAll ∧
    afterEnterAll.outstanding "cpu" = 2 ∧ afterEnterAll.outstanding "gpu" = 2 ∧
    afterEnterAll.outstanding "network" = 3 ∧ afterEnterAll.outstanding "processes" = 2 :=
  ⟨reachable_afterEnterAll, by decide, by decide, by decide, by decide⟩

/-- C13 as amended (single in-flight command per generation).  In every state of the event loop
reached from the start in fewer than 2^63 turns, that is before any generation can have wrapped
around, and for every polling loop (the collection loop of each of the four pollers and the
speedtest loop of the network poller), at most one outstanding command is tagged with the
current generation of the loop, the `Id` of its poller; every other outstanding command of the
loop is tagged with an older generation. -/
theorem single_in_flight_per_generation (info : InterfaceInfo) (n : Nat) (s : Program)
    (l : Loop) (hn : n < 2 ^ 63) (h : Program.ReachableIn info n s) :
    s.current l ≤ 1 ∧ ∀ j ∈ s.pending, ∀ g, j.loop = some (l, g) → g ≤ s.model.gen l :=
  ⟨(program_inv info n s l h hn).2, (program_inv info n s l h hn).1⟩

/-- Witness of C13 as amended: the cpu loop and the speedtest loop after the confirm key on the
initial menu, the first turn of the event loop. -/
theorem single_in_flight_per_generation_witness :
    1 < 2 ^ 63 ∧ Program.ReachableIn sampleInfo 1 afterEnterAll ∧
    (afterEnterAll.current .cpu ≤ 1 ∧
      ∀ j ∈ afterEnterAll.pending, ∀ g, j.loop = some (.cpu, g) → g ≤ afterEnterAll.model.gen .cpu) ∧
    (afterEnterAll.current .speed ≤ 1 ∧
      ∀ j ∈ afterEnterAll.pending, ∀ g, j.loop = some (.speed, g) →
        g ≤ afterEnterAll.model.gen .speed) :=
  ⟨by decide, reachableIn_afterEnterAll,
    single_in_flight_per_generation sampleInfo 1 afterEnterAll .cpu (by decide)
      reachableIn_afterEnterAll,
    single_in_flight_per_generation sampleInfo 1 afterEnterAll .speed (by decide)
      reachableIn_afterEnterAll⟩

/-- C14 (top-5 selection in `fetchPsData`), the code at a failing input.  The output of `ps` is
"1 a nan 0.0", "2 b 1.0": the process 1 is named "a nan" and its value is 0.0.  The code takes
the third field of each line as the value, here the text "nan" of the name, which
`strconv.ParseFloat` reads as a NaN; every comparison with a NaN is false, so the sort moves
nothing.  The returned list is the item "a" with a NaN followed by the item "b" with 1.0: it is
not in non-increasing order of `Value`, and the first item is not greater than or equal to the
second. -/
theorem top_five_unordered_with_nan :
    parseLines testLib (testLib.lines nanPs)
      = [⟨"1", "a", ⟨0x7FF8000000000001⟩, "%"⟩, ⟨"2", "b", ⟨0x3FF0000000000000⟩, "%"⟩] ∧
    fetchPsData testLib (some nanPs)
      = [⟨"1", "a", ⟨0x7FF8000000000001⟩, "%"⟩, ⟨"2", "b", ⟨0x3FF0000000000000⟩, "%"⟩] ∧
    Float64.isNaN ⟨0x7FF8000000000001⟩ = true ∧
    Float64.ge ⟨0x7FF8000000000001⟩ ⟨0x3FF0000000000000⟩ = false ∧
    ¬ (fetchPsData testLib (some nanPs)).Pairwise (fun a b => a.Value.ge b.Value = true) := by
  decide

/-- The selection of `fetchPsData` when no parsed `Value` is a NaN: the list built from the
output of `ps` (one item per line with at least three fields, `Value` parsed from the third
field) is returned in non-increasing order of `Value`, has length
`min(5, number of parsed lines)`, and every returned item has a `Value` greater than or equal
to that of every parsed item that was not returned. -/
theorem top_five_selection (lib : PsLib) (out : String) (hs : lib.SortOk)
    (hn : ∀ x ∈ parseLines lib (lib.lines out), x.Value.isNaN = false) :
    (fetchPsData lib (some out)).Pairwise (fun a b => a.Value.ge b.Value = true) ∧
    (fetchPsData lib (some out)).length = min 5 (parseLines lib (lib.lines out)).length ∧
    ∃ rest, (fetchPsData lib (some out) ++ rest).Perm (parseLines lib (lib.lines out)) ∧
      ∀ a ∈ fetchPsData lib (some out), ∀ b ∈ rest, a.Value.ge b.Value = true := by
  have hperm := hs.perm (fun a b => a.Value.gt b.Value) (parseLines lib (lib.lines out))
  have hsorted := hs.sorted (fun a b => a.Value.gt b.Value) (parseLines lib (lib.lines out))
    (fun x => - x.Value.rank) (by
      intro a ha b hb
      simp only [Float64.gt, hn a ha, hn b hb, Bool.not_false, Bool.true_and, neg_lt_neg_iff])
  have hge : (lib.sortSlice (fun a b => a.Value.gt b.Value)
      (parseLines lib (lib.lines out))).Pairwise (fun a b => a.Value.ge b.Value = true) := by
    refine List.Pairwise.imp_of_mem ?_ hsorted
    intro a b ha hb hab
    have na := hn a (hperm.subset ha)
    have nb := hn b (hperm.subset hb)
    simp only [Float64.ge, na, nb, Bool.not_false, Bool.true_and, decide_eq_true_eq]
    exact neg_le_neg_iff.mp hab
  have hf : fetchPsData lib (some out)
      = (lib.sortSlice (fun a b => a.Value.gt b.Value) (parseLines lib (lib.lines out))).take 5 := by
    simp only [fetchPsData]
    split_ifs with h
    · rfl
    · rw [List.take_of_length_le (by omega)]
  rw [hf]
  refine ⟨hge.sublist (List.take_sublist _ _), ?_, ?_⟩
  · rw [List.length_take, hperm.length_eq]
  · refine ⟨(lib.sortSlice (fun a b => a.Value.gt b.Value)
      (parseLines lib (lib.lines out))).drop 5, ?_, ?_⟩
    · rw [List.take_append_drop]
      exact hperm
    · have h2 := hge
      rw [← List.take_append_drop 5 (lib.sortSlice (fun a b => a.Value.gt b.Value)
        (parseLines lib (lib.lines out))), List.pairwise_append] at h2
      exact h2.2.2

/-- The selection of `fetchPsData` on the output of `ps` for seven processes, none with a
NaN. -/
theorem top_five_selection_witness :
    testLib.SortOk ∧
    (∀ x ∈ parseLines testLib (testLib.lines samplePs), x.Value.isNaN = false) ∧
    ((fetchPsData testLib (some samplePs)).Pairwise (fun a b => a.Value.ge b.Value = true) ∧
    (fetchPsData testLib (some samplePs)).length
      = min 5 (parseLines testLib (testLib.lines samplePs)).length ∧
    ∃ rest, (fetchPsData testLib (some samplePs) ++ rest).Perm
        (parseLines testLib (testLib.lines samplePs)) ∧
      ∀ a ∈ fetchPsData testLib (some samplePs), ∀ b ∈ rest, a.Value.ge b.Value = true) :=
  ⟨testLib_sortOk, by decide, top_five_selection testLib samplePs testLib_sortOk (by decide)⟩

/-- C15 (polling matches the active page).  In every coordinator state reachable from
`InitialModel`, the page is one of menu, cpu, gpu, network, processes, all, and each poller's
`Polling` flag is true exactly when the page is that poller's own page or "all"; so on the menu
page all four flags are false. -/
theorem polling_matches_page (info : InterfaceInfo) (m : MainModel) (h : Reachable info m) :
    (m.Page = "menu" ∨ m.Page = "cpu" ∨ m.Page = "gpu" ∨ m.Page = "network" ∨
      m.Page = "processes" ∨ m.Page = "all") ∧
    (m.cpuModel.Polling = true ↔ (m.Page = "cpu" ∨ m.Page = "all")) ∧
    (m.gpuModel.Polling = true ↔ (m.Page = "gpu" ∨ m.Page = "all")) ∧
    (m.netModel.Polling = true ↔ (m.Page = "network" ∨ m.Page = "all")) ∧
    (m.procModel.Polling = true ↔ (m.Page = "processes" ∨ m.Page = "all")) ∧
    (m.Page = "menu" →
      m.cpuModel.Polling = false ∧ m.gpuModel.Polling = false ∧
      m.netModel.Polling = false ∧ m.procModel.Polling = false) := by
  have hi := reachable_inv info m h
  refine ⟨hi.page, hi.cpu, hi.gpu, hi.net, hi.proc, ?_⟩
  intro hm
  have h1 := hi.cpu
  have h2 := hi.gpu
  have h3 := hi.net
  have h4 := hi.proc
  rw [hm] at h1 h2 h3 h4
  simp at h1 h2 h3 h4
  exact ⟨h1, h2, h3, h4⟩

/-- Witness of C15: the state reached from the initial model by "down", "down", "enter", which
is the cpu page. -/
theorem polling_matches_page_witness :
    Reachable sampleInfo (entered 2) ∧
    (((entered 2).Page = "menu" ∨ (entered 2).Page = "cpu" ∨ (entered 2).Page = "gpu" ∨
      (entered 2).Page = "network" ∨ (entered 2).Page = "processes" ∨
      (entered 2).Page = "all") ∧
    ((entered 2).cpuModel.Polling = true ↔ ((entered 2).Page = "cpu" ∨ (entered 2).Page = "all")) ∧
    ((entered 2).gpuModel.Polling = true ↔ ((entered 2).Page = "gpu" ∨ (entered 2).Page = "all")) ∧
    ((entered 2).netModel.Polling = true
      ↔ ((entered 2).Page = "network" ∨ (entered 2).Page = "all")) ∧
    ((entered 2).procModel.Polling = true
      ↔ ((entered 2).Page = "processes" ∨ (entered 2).Page = "all")) ∧
    ((entered 2).Page = "menu" →
      (entered 2).cpuModel.Polling = false ∧ (entered 2).gpuModel.Polling = false ∧
      (entered 2).netModel.Polling = false ∧ (entered 2).procModel.Polling = false)) :=
  ⟨reachable_samples.2.2.2.2.2.2.2.1,
    polling_matches_page sampleInfo (entered 2) reachable_samples.2.2.2.2.2.2.2.1⟩

/-- C16 (generation-0 results are never applied).  In every coordinator state reached from
`InitialModel` by fewer than 2^63 messages, that is before any generation can have wrapped
around to 0, a telemetry message tagged with generation 0, in particular a result of the initial
fetch issued by `MainModel.Init`, leaves the whole coordinator state unchanged and returns no
command. -/
theorem generation_zero_dropped (info : InterfaceInfo) (n : Nat) (m : MainModel) (env : Env)
    (msg : Msg) (hn : n < 2 ^ 63) (h : ReachableIn info n m) (hg : msg.generation = some 0) :
    m.Update env msg = some (m, none) := by
  have hi := reachable_inv info m (reachable_of_reachableIn info n m h)
  have hid := reachableIn_idInv info n m h hn
  obtain ⟨ht, p, ho, hpp, hpa⟩ := telemetry_of_generation msg 0 hg
  rcases hi.page with hm | hp
  · apply update_telemetry_menu env m msg _ ht
    rw [hm]; decide
  · by_cases ha : m.Page = "all"
    · rw [update_telemetry_all env m msg ha ht]
      have c := hid.cpuId.2.2 (hi.cpu.2 (Or.inr ha))
      have g := hid.gpuId.2.2 (hi.gpu.2 (Or.inr ha))
      have n := hid.netId.2.2 (hi.net.2 (Or.inr ha))
      have q := hid.procId.2.2 (hi.proc.2 (Or.inr ha))
      rw [specRoute_stale env m msg 0 hg (by omega) (by omega) (by omega) (by omega)]
    · by_cases hown : msg.owner = some m.Page
      · rw [update_telemetry_own env m msg hown]
        have hs : m.specRoute env msg = (m, none) := by
          rcases hp with e | e | e | e | e
          · have c := hid.cpuId.2.2 (hi.cpu.2 (Or.inl e))
            have c0 : (0 : Int) ≠ m.cpuModel.Id := by omega
            rw [e] at hown
            cases msg <;> simp [Msg.owner] at hown
            simp [Msg.generation] at hg
            simp [MainModel.specRoute, CpuModel.Update, hg, c0]
          · have c := hid.gpuId.2.2 (hi.gpu.2 (Or.inl e))
            have c0 : (0 : Int) ≠ m.gpuModel.Id := by omega
            rw [e] at hown
            cases msg <;> simp [Msg.owner] at hown
            simp [Msg.generation] at hg
            simp [MainModel.specRoute, GpuModel.Update, hg, c0]
          · have c := hid.netId.2.2 (hi.net.2 (Or.inl e))
            have c0 : (0 : Int) ≠ m.netModel.Id := by omega
            rw [e] at hown
            cases msg <;> simp [Msg.owner] at hown <;> simp [Msg.generation] at hg <;>
              simp [MainModel.specRoute, NetworkModel.Update, hg, c0]
          · have c := hid.procId.2.2 (hi.proc.2 (Or.inl e))
            have c0 : (0 : Int) ≠ m.procModel.Id := by omega
            rw [e] at hown
            cases msg <;> simp [Msg.owner] at hown
            simp [Msg.generation] at hg
            simp [MainModel.specRoute, ProcessModel.Update, hg, c0]
          · exact absurd e ha
        rw [hs]
      · exact update_telemetry_foreign env m msg hp ha ht hown

/-- Witness of C16: the result of the initial cpu fetch (generation 0) delivered on the cpu page
reached by the three messages "down", "down", "enter". -/
theorem generation_zero_dropped_witness :
    3 < 2 ^ 63 ∧ ReachableIn sampleInfo 3 (entered 2) ∧
    (Msg.cpuStats (sampleCpuMsg 0)).generation = some 0 ∧
    (entered 2).Update testEnv (.cpuStats (sampleCpuMsg 0)) = some (entered 2, none) :=
  ⟨by decide, reachableIn_entered_cpu, by decide,
    generation_zero_dropped sampleInfo 3 (entered 2) testEnv (.cpuStats (sampleCpuMsg 0))
      (by decide) reachableIn_entered_cpu (by decide)⟩

/-- C17 (cursor stays in range).  In every coordinator state reachable from `InitialModel` the
menu has its 5 lines and `0 <= cursor < len(choices)`, so the lookup `choices[cursor]` succeeds
and no message makes `MainModel.Update` panic; "up" with the cursor at 0 and "down" with the
cursor at 4 leave the cursor where it is. -/
theorem cursor_in_range (info : InterfaceInfo) (m : MainModel) (h : Reachable info m) :
    0 ≤ m.cursor ∧ m.cursor < (m.choices.length : Int) ∧ m.choices.length = 5 ∧
    (∃ page, sliceIndex m.choices m.cursor = some page) ∧
    (∀ env msg, ∃ m' c, m.Update env msg = some (m', c)) ∧
    (∀ env m' c, m.cursor = 0 → m.Update env (.key "up") = some (m', c) → m'.cursor = 0) ∧
    (∀ env m' c, m.cursor = 4 → m.Update env (.key "down") = some (m', c) → m'.cursor = 4) := by
  have hi := reachable_inv info m h
  have hl : m.choices.length = 5 := by rw [hi.choices]; rfl
  obtain ⟨page, hs, -⟩ := inv_sliceIndex m hi
  refine ⟨hi.cursor_lo, ?_, hl, ⟨page, hs⟩, ?_, ?_, ?_⟩
  · rw [hl]; exact hi.cursor_hi
  · intro env msg
    exact update_isSome env m msg ⟨page, hs⟩
  · intro env m' c h0 hu
    exact (update_up_down_cursor env m m' c).1 h0 hu
  · intro env m' c h4 hu
    have e : m.cursor = (m.choices.length : Int) - 1 := by rw [hl, h4]; rfl
    rw [(update_up_down_cursor env m m' c).2 e hu, h4]

/-- Witness of C17: the menu with the cursor on its last line, reached from the initial model by
four "down" keys. -/
theorem cursor_in_range_witness :
    Reachable sampleInfo (menuAt 4) ∧
    (0 ≤ (menuAt 4).cursor ∧ (menuAt 4).cursor < ((menuAt 4).choices.length : Int) ∧
    (menuAt 4).choices.length = 5 ∧
    (∃ page, sliceIndex (menuAt 4).choices (menuAt 4).cursor = some page) ∧
    (∀ env msg, ∃ m' c, (menuAt 4).Update env msg = some (m', c)) ∧
    (∀ env m' c, (menuAt 4).cursor = 0 → (menuAt 4).Update env (.key "up") = some (m', c) →
      m'.cursor = 0) ∧
    (∀ env m' c, (menuAt 4).cursor = 4 → (menuAt 4).Update env (.key "down") = some (m', c) →
      m'.cursor = 4)) :=
  ⟨reachable_samples.2.2.2.2.1, cursor_in_range sampleInfo (menuAt 4) reachable_samples.2.2.2.2.1⟩

/-- C18 (quit only from the menu).  `MainModel.Update` returns the quit command exactly when the
menu is active and the message is the key "q" or "ctrl+c".  The menu logic is what `Update` runs
on every page that is not one of the five poller pages; for a state whose page is one of the six
page names (every reachable state) that is the page "menu".  On the poller pages those two keys
leave the coordinator state unchanged and return no command. -/
theorem quit_only_from_menu (env : Env) (m : MainModel) (msg : Msg) :
    ((∃ m', m.Update env msg = some (m', some (Cmd.run .quit)))
      ↔ (¬ isPollerPage m.Page ∧ (msg = .key "q" ∨ msg = .key "ctrl+c"))) ∧
    ((m.Page = "menu" ∨ isPollerPage m.Page) →
      ((∃ m', m.Update env msg = some (m', some (Cmd.run .quit)))
        ↔ (m.Page = "menu" ∧ (msg = .key "q" ∨ msg = .key "ctrl+c")))) ∧
    (isPollerPage m.Page → (msg = .key "q" ∨ msg = .key "ctrl+c") →
      m.Update env msg = some (m, none)) := by
  have h1 : (∃ m', m.Update env msg = some (m', some (Cmd.run .quit)))
      ↔ (¬ isPollerPage m.Page ∧ (msg = .key "q" ∨ msg = .key "ctrl+c")) := by
    by_cases hp : isPollerPage m.Page
    · constructor
      · rintro ⟨m', h⟩
        exact absurd h (update_poller_page_no_quit env m m' msg hp)
      · rintro ⟨hn, -⟩
        exact absurd hp hn
    · rw [update_menu_quit env m msg hp]
      exact ⟨fun h => ⟨hp, h⟩, fun h => h.2⟩
  refine ⟨h1, ?_, ?_⟩
  · intro hv
    rw [h1]
    have e : ¬ isPollerPage m.Page ↔ m.Page = "menu" := by
      constructor
      · intro hn
        rcases hv with p | p
        · exact p
        · exact absurd p hn
      · intro p
        rw [p]; decide
    rw [e]
  · intro hp hk
    rcases hk with e | e <;> subst e
    · exact update_poller_page_quit_keys env m "q" hp (by decide)
    · exact update_poller_page_quit_keys env m "ctrl+c" hp (by decide)

/-- Witness of C18: the key "q" on the initial menu quits, and on the cpu page it changes
nothing. -/
theorem quit_only_from_menu_witness :
    (((menuAt 0).Page = "menu" ∨ isPollerPage (menuAt 0).Page) ∧
      ((∃ m', (menuAt 0).Update testEnv (.key "q") = some (m', some (Cmd.run .quit)))
        ↔ ((menuAt 0).Page = "menu" ∧ (Msg.key "q" = .key "q" ∨ Msg.key "q" = .key "ctrl+c")))) ∧
    (isPollerPage (entered 2).Page ∧ (Msg.key "q" = .key "q" ∨ Msg.key "q" = .key "ctrl+c") ∧
      (entered 2).Update testEnv (.key "q") = some (entered 2, none)) :=
  ⟨⟨by decide, (quit_only_from_menu testEnv (menuAt 0) (.key "q")).2.1 (by decide)⟩,
   ⟨by decide, by decide,
     (quit_only_from_menu testEnv (entered 2) (.key "q")).2.2 (by decide) (by decide)⟩⟩

end GoStats
